import Mathlib

/-!
Shallow embedding of `crates/editor_ui/src/meshless_visualizer.rs` from the
`space_editor` repository: the meshless-proxy visualizer.

Entities are natural-number ids; a world is an association list from ids to
component data plus a fresh-id counter.  Bevy systems use deferred commands:
each system reads a snapshot of the world, produces a list of spawn commands,
and the commands are applied after the queries ran.  The embedding mirrors
this: `visualize_meshless` and `visualize_custom_meshless` first compute their
command lists from the input world, then fold the command applications.
-/

/-- Handle to an image asset (`Handle<Image>`). -/
inductive ImageHandle where
  /-- Handle obtained from `asset_server.load::<Image>(path)`. -/
  | load (path : String)
  /-- An arbitrary user-supplied handle. -/
  | user (n : Nat)
deriving DecidableEq, Repr

/-- Handle to a mesh asset (`Handle<Mesh>`). -/
inductive MeshHandle where
  /-- Handle of a freshly added flat quad mesh of the given size
  (`ass.add(shape::Quad...)`). -/
  | addedQuad (width height : ℚ)
  /-- Handle of a freshly added icosphere mesh of the given radius. -/
  | addedSphere (radius : ℚ)
  /-- An arbitrary user-supplied handle. -/
  | user (n : Nat)
deriving DecidableEq, Repr

/-- The fields of `StandardMaterial` that the source module touches.  The
engine default has `unlit = false` and a white base color. -/
structure StandardMaterialSpec where
  unlit : Bool := false
  baseColor : ℚ × ℚ × ℚ × ℚ := (1, 1, 1, 1)
deriving DecidableEq, Repr

/-- Handle to a `StandardMaterial` asset. -/
inductive MaterialHandle where
  /-- `Handle::<StandardMaterial>::default()`, as left by `..default` in a
  `MaterialMeshBundle`. -/
  | defaultHandle
  /-- Handle of a freshly added material (`ass.add(StandardMaterial ...)`). -/
  | added (m : StandardMaterialSpec)
  /-- An arbitrary user-supplied handle. -/
  | user (n : Nat)
deriving DecidableEq, Repr

/-- Value of a `Visibility` component. -/
inductive Vis where
  | inherited
  | hidden
  | visible
deriving DecidableEq, Repr

/-- `MeshlessModel`: what a custom entity uses as its editor interactable
model (source lines 60-69).  Optional fields mean "use default if absent". -/
inductive MeshlessModel where
  | billboard (mesh : Option MeshHandle) (texture : Option ImageHandle)
  | object (mesh : Option MeshHandle) (material : Option MaterialHandle)
deriving DecidableEq, Repr

/-- `CustomMeshless` component (source lines 52-55). -/
structure CustomMeshless where
  visual : MeshlessModel
deriving DecidableEq, Repr

/-- `EditorIconAssets` resource (source lines 82-104): the icon images and the
two meshes loaded at startup. -/
structure EditorIconAssets where
  unknown : ImageHandle
  directional : ImageHandle
  point : ImageHandle
  spot : ImageHandle
  camera : ImageHandle
  square : MeshHandle
  sphere : MeshHandle
deriving DecidableEq, Repr

/-- Modelled from the spec: the editor-only render layer constant
`LAST_RENDER_LAYER`, defined elsewhere in the `editor_ui` crate.  No claim
depends on its numeric value. -/
def LAST_RENDER_LAYER : Nat := 31

/-- The components of one entity that the module reads or writes.  Boolean
fields record presence of marker/ECS components; `Option` fields record
presence plus payload. -/
structure EntityData where
  directionalLight : Bool := false
  spotLight : Bool := false
  pointLight : Bool := false
  camera : Bool := false
  prefabMarker : Bool := false
  transform : Bool := false
  visibility : Option Vis := none
  editorCameraMarker : Bool := false
  customMeshless : Option CustomMeshless := none
  billboardMeshHandle : Option MeshHandle := none
  billboardTextureHandle : Option ImageHandle := none
  meshHandle : Option MeshHandle := none
  materialHandle : Option MaterialHandle := none
  selectParent : Option Nat := none
  renderLayers : Option Nat := none
  children : List Nat := []
deriving DecidableEq, Repr

/-- An ECS world: entities as an association list (id, data) plus the next
fresh entity id. -/
structure World where
  ents : List (Nat × EntityData)
  nextId : Nat
deriving DecidableEq, Repr

/-- Component lookup for an entity id. -/
def World.get? (w : World) (id : Nat) : Option EntityData :=
  (w.ents.find? (fun p => p.1 == id)).map Prod.snd

/-- Well-formedness: entity ids are distinct, below the fresh-id counter, and
`Children` lists only reference ids below the counter. -/
def World.wf (w : World) : Prop :=
  (w.ents.map Prod.fst).Nodup ∧
  (∀ p ∈ w.ents, p.1 < w.nextId) ∧
  (∀ p ∈ w.ents, ∀ c ∈ p.2.children, c < w.nextId)

instance : DecidablePred World.wf := fun w => by
  unfold World.wf; infer_instance

/-- `visualized.get(child).is_ok()`: the child entity exists and carries a
`BillboardMeshHandle` component (the query at source line 206/285). -/
def hasBillboardMeshHandle (w : World) (id : Nat) : Bool :=
  match w.get? id with
  | some d => d.billboardMeshHandle.isSome
  | none => false

/-- The missing-proxy test of source lines 212-215 / 248-251 / 288-291:
the entity has no children, or every child fails the `visualized` query. -/
def missingProxy (w : World) (d : EntityData) : Bool :=
  d.children.isEmpty ||
    d.children.all (fun child => !(hasBillboardMeshHandle w child))

/-- The `AnyOf<(&DirectionalLight, &SpotLight, &PointLight)>` query item. -/
def lightAnyOf (d : EntityData) : Option Unit × Option Unit × Option Unit :=
  ((if d.directionalLight then some () else none),
   (if d.spotLight then some () else none),
   (if d.pointLight then some () else none))

/-- The match on the light kind at source lines 217-222.  `none` stands for
the `unreachable!()` arm. -/
def lightImage (icons : EditorIconAssets)
    (t : Option Unit × Option Unit × Option Unit) : Option ImageHandle :=
  match t with
  | (some _, _, _) => some icons.directional
  | (_, some _, _) => some icons.spot
  | (_, _, some _) => some icons.point
  | (none, none, none) => none

/-- Filter of the `lights` query (source lines 188-195): at least one light
kind, plus `With<PrefabMarker>, With<Transform>, With<Visibility>`. -/
def lightQueryFilter (d : EntityData) : Bool :=
  (d.directionalLight || d.spotLight || d.pointLight) &&
    d.prefabMarker && d.transform && d.visibility.isSome

/-- Filter of the `cams` query (source lines 196-205): `With<Camera>,
With<PrefabMarker>, With<Transform>, With<Visibility>,
Without<EditorCameraMarker>`. -/
def camQueryFilter (d : EntityData) : Bool :=
  d.camera && d.prefabMarker && d.transform && d.visibility.isSome &&
    !d.editorCameraMarker

/-- Components of a spawned billboard proxy (`BillboardTextureBundle` plus
`RenderLayers`, source lines 224-232): billboard mesh and texture handles,
default transform and visibility, and the collision child. -/
def billboardProxyData (mesh : MeshHandle) (tex : ImageHandle)
    (collId : Nat) : EntityData :=
  { billboardMeshHandle := some mesh
    billboardTextureHandle := some tex
    transform := true
    visibility := some Vis.inherited
    renderLayers := some LAST_RENDER_LAYER
    children := [collId] }

/-- Components of the clickable collision child (source lines 233-242): the
sphere mesh, hidden visibility, default material handle, and the
`SelectParent` back-reference to the subject entity. -/
def collisionChildData (sphere : MeshHandle) (subject : Nat) : EntityData :=
  { meshHandle := some sphere
    materialHandle := some MaterialHandle.defaultHandle
    transform := true
    visibility := some Vis.hidden
    selectParent := some subject }

/-- Components of a spawned object-style proxy (source lines 322-335):
`MaterialMeshBundle` plus `SelectParent` directly on the proxy plus
`RenderLayers`; it has no collision child. -/
def objectProxyData (mesh : MeshHandle) (material : MaterialHandle)
    (subject : Nat) : EntityData :=
  { meshHandle := some mesh
    materialHandle := some material
    transform := true
    visibility := some Vis.inherited
    selectParent := some subject
    renderLayers := some LAST_RENDER_LAYER }

/-- A deferred spawn command produced by one reconciliation loop body. -/
inductive Command where
  /-- Spawn a billboard proxy (with collision child) under `subject`. -/
  | billboard (subject : Nat) (mesh : MeshHandle) (tex : ImageHandle)
  /-- Spawn an object-style proxy under `subject`. -/
  | object (subject : Nat) (mesh : MeshHandle) (material : MaterialHandle)
deriving DecidableEq, Repr

/-- The subject entity a command targets. -/
def Command.subject : Command → Nat
  | .billboard s _ _ => s
  | .object s _ _ => s

/-- Number of entities a command spawns (billboards come with a collision
child). -/
def Command.spawnCount : Command → Nat
  | .billboard _ _ _ => 2
  | .object _ _ _ => 1

/-- Whether a command spawns a billboard-style proxy. -/
def Command.isBillboard : Command → Bool
  | .billboard _ _ _ => true
  | .object _ _ _ => false

/-- The component data a command places on the proxy it spawns at id
`pid`. -/
def Command.proxyData (c : Command) (pid : Nat) : EntityData :=
  match c with
  | .billboard _ mesh tex => billboardProxyData mesh tex (pid + 1)
  | .object s mesh material => objectProxyData mesh material s

/-- `commands.entity(parent).add_child(child)`. -/
def addChildTo (ents : List (Nat × EntityData)) (parent child : Nat) :
    List (Nat × EntityData) :=
  ents.map (fun p =>
    if p.1 == parent then
      (p.1, { p.2 with children := p.2.children ++ [child] })
    else p)

/-- Apply one deferred command: spawn the proxy entity (and, for billboards,
its collision child), then attach the proxy to the subject. -/
def applyCommand (icons : EditorIconAssets) (w : World) (c : Command) :
    World :=
  match c with
  | .billboard s mesh tex =>
      let proxyId := w.nextId
      let collId := w.nextId + 1
      { ents := addChildTo
          (w.ents ++ [(proxyId, billboardProxyData mesh tex collId),
                      (collId, collisionChildData icons.sphere s)]) s proxyId
        nextId := w.nextId + 2 }
  | .object s mesh material =>
      let proxyId := w.nextId
      { ents := addChildTo
          (w.ents ++ [(proxyId, objectProxyData mesh material s)]) s proxyId
        nextId := w.nextId + 1 }

/-- Loop body of the lights loop in `visualize_meshless`
(source lines 209-246), as an optional command. -/
def lightCmd (icons : EditorIconAssets) (w : World)
    (p : Nat × EntityData) : Option Command :=
  if lightQueryFilter p.2 && missingProxy w p.2 then
    match lightImage icons (lightAnyOf p.2) with
    | some img => some (Command.billboard p.1 icons.square img)
    | none => none
  else none

/-- Loop body of the cameras loop in `visualize_meshless`
(source lines 247-275). -/
def camCmd (icons : EditorIconAssets) (w : World)
    (p : Nat × EntityData) : Option Command :=
  if camQueryFilter p.2 && missingProxy w p.2 then
    some (Command.billboard p.1 icons.square icons.camera)
  else none

/-- Visual selection of `visualize_custom_meshless` (source lines 293-336):
substitute the documented defaults for unset optional fields. -/
def resolveMeshless (icons : EditorIconAssets) (subject : Nat) :
    MeshlessModel → Command
  | .billboard mesh texture =>
      Command.billboard subject
        (mesh.getD (MeshHandle.addedQuad 2 2))
        (texture.getD (ImageHandle.load "icons/unknown.png"))
  | .object mesh material =>
      Command.object subject
        (mesh.getD icons.sphere)
        (material.getD (MaterialHandle.added { unlit := true }))

/-- Loop body of `visualize_custom_meshless` (source lines 287-338). -/
def customCmd (icons : EditorIconAssets) (w : World)
    (p : Nat × EntityData) : Option Command :=
  match p.2.customMeshless with
  | some cm =>
      if missingProxy w p.2 then some (resolveMeshless icons p.1 cm.visual)
      else none
  | none => none

/-- The deferred commands produced by one run of `visualize_meshless`:
the lights loop followed by the cameras loop. -/
def meshlessCommands (icons : EditorIconAssets) (w : World) : List Command :=
  w.ents.filterMap (lightCmd icons w) ++ w.ents.filterMap (camCmd icons w)

/-- `visualize_meshless` (source lines 186-276): compute the commands from
the query snapshot, then apply them. -/
def visualize_meshless (icons : EditorIconAssets) (w : World) : World :=
  (meshlessCommands icons w).foldl (applyCommand icons) w

/-- The deferred commands produced by one run of
`visualize_custom_meshless`. -/
def customCommands (icons : EditorIconAssets) (w : World) : List Command :=
  w.ents.filterMap (customCmd icons w)

/-- `visualize_custom_meshless` (source lines 280-340). -/
def visualize_custom_meshless (icons : EditorIconAssets) (w : World) :
    World :=
  (customCommands icons w).foldl (applyCommand icons) w

/-- The filter of the `objects` query in `clean_meshless` (source line 346):
`Or<(With<BillboardTextureHandle>, With<BillboardMeshHandle>)>`. -/
def proxyMarker (d : EntityData) : Bool :=
  d.billboardTextureHandle.isSome || d.billboardMeshHandle.isSome

/-- The `Children` list of an entity id (empty when absent). -/
def childrenOf (w : World) (id : Nat) : List Nat :=
  match w.get? id with
  | some d => d.children
  | none => []

/-- Children of every id in a list. -/
def childrenOfAll (w : World) : List Nat → List Nat
  | [] => []
  | x :: xs => childrenOf w x ++ childrenOfAll w xs

/-- Fuelled descendant closure used to model `despawn_recursive`. -/
def descendantsAux (w : World) : Nat → List Nat → List Nat
  | 0, frontier => frontier
  | fuel + 1, frontier => frontier ++ descendantsAux w fuel (childrenOfAll w frontier)

/-- All entities despawned by `clean_meshless`: every entity matching the
proxy-marker query, together with its descendants. -/
def despawnSet (w : World) : List Nat :=
  descendantsAux w w.ents.length
    ((w.ents.filter (fun p => proxyMarker p.2)).map Prod.fst)

/-- `clean_meshless` (source lines 342-351): `despawn_recursive` every entity
matching the proxy-marker query; despawning also detaches the removed ids
from surviving `Children` lists. -/
def clean_meshless (w : World) : World :=
  let dead := despawnSet w
  { w with
    ents := (w.ents.filter (fun p => !(dead.contains p.1))).map
      (fun p =>
        (p.1, { p.2 with
                  children := p.2.children.filter (fun c => !(dead.contains c)) })) }

/-- The five subject kinds named by the spec's coverage property. -/
inductive SubjectKind where
  | directional
  | spot
  | point
  | cam
  | meshless (m : MeshlessModel)
deriving DecidableEq, Repr

/-- The entity carries exactly the components of one subject kind (and the
query filter of the pass that handles that kind). -/
def kindMatches : SubjectKind → EntityData → Prop
  | .directional, d =>
      d.directionalLight = true ∧ d.spotLight = false ∧ d.pointLight = false ∧
      d.camera = false ∧ d.customMeshless = none ∧
      d.prefabMarker = true ∧ d.transform = true ∧ d.visibility.isSome = true
  | .spot, d =>
      d.directionalLight = false ∧ d.spotLight = true ∧ d.pointLight = false ∧
      d.camera = false ∧ d.customMeshless = none ∧
      d.prefabMarker = true ∧ d.transform = true ∧ d.visibility.isSome = true
  | .point, d =>
      d.directionalLight = false ∧ d.spotLight = false ∧ d.pointLight = true ∧
      d.camera = false ∧ d.customMeshless = none ∧
      d.prefabMarker = true ∧ d.transform = true ∧ d.visibility.isSome = true
  | .cam, d =>
      d.directionalLight = false ∧ d.spotLight = false ∧ d.pointLight = false ∧
      d.camera = true ∧ d.editorCameraMarker = false ∧ d.customMeshless = none ∧
      d.prefabMarker = true ∧ d.transform = true ∧ d.visibility.isSome = true
  | .meshless m, d =>
      d.directionalLight = false ∧ d.spotLight = false ∧ d.pointLight = false ∧
      d.camera = false ∧ d.customMeshless = some ⟨m⟩

instance (k : SubjectKind) : DecidablePred (kindMatches k) := fun d => by
  cases k <;> (unfold kindMatches; infer_instance)

/-- The pass of the reconciler that handles a given subject kind: lights and
cameras go through `visualize_meshless`, meshless-tagged entities through
`visualize_custom_meshless`. -/
def passFor : SubjectKind → EditorIconAssets → World → World
  | .meshless _, icons, w => visualize_custom_meshless icons w
  | _, icons, w => visualize_meshless icons w

/-- The command the reconciler is expected to emit for a missing-proxy
subject of a given kind. -/
def expectedCommand (icons : EditorIconAssets) (id : Nat) :
    SubjectKind → Command
  | .directional => Command.billboard id icons.square icons.directional
  | .spot => Command.billboard id icons.square icons.spot
  | .point => Command.billboard id icons.square icons.point
  | .cam => Command.billboard id icons.square icons.camera
  | .meshless m => resolveMeshless icons id m

/-- The data a command leaves in the world at the freshly spawned proxy id
`p`: billboard proxies come with their collision child at `p + 1`. -/
def spawnedData (icons : EditorIconAssets) (w : World) (p : Nat) :
    Command → Prop
  | .billboard s mesh tex =>
      w.get? p = some (billboardProxyData mesh tex (p + 1)) ∧
      w.get? (p + 1) = some (collisionChildData icons.sphere s)
  | .object s mesh material =>
      w.get? p = some (objectProxyData mesh material s)

/-- One frame of the reconciler: both passes, in their registration order. -/
def reconcileFrame (icons : EditorIconAssets) (w : World) : World :=
  visualize_custom_meshless icons (visualize_meshless icons w)

/-- Number of direct children of an entity that the reconciliation test
recognizes as proxy-bearing. -/
def recognizedProxyChildren (w : World) (id : Nat) : Nat :=
  match w.get? id with
  | some d => d.children.countP (fun c => hasBillboardMeshHandle w c)
  | none => 0

/-- A concrete icon-asset set used by witnesses and counterexamples. -/
def sampleIcons : EditorIconAssets :=
  { unknown := ImageHandle.load "icons/unknown.png"
    directional := ImageHandle.load "icons/directional.png"
    point := ImageHandle.load "icons/point.png"
    spot := ImageHandle.load "icons/spot.png"
    camera := ImageHandle.load "icons/camera.png"
    square := MeshHandle.user 100
    sphere := MeshHandle.user 101 }

/-- A meshless-tagged entity with an `Object` visual whose optional fields
are unset. -/
def dObj : EntityData :=
  { customMeshless := some { visual := MeshlessModel.object none none } }

/-- A world holding a single meshless-tagged entity with an `Object` visual
whose optional fields are unset. -/
def wObj : World :=
  { ents := [(0, dObj)], nextId := 1 }

/-- A meshless-tagged entity with a `Billboard` visual whose optional fields
are unset. -/
def dBill : EntityData :=
  { customMeshless := some { visual := MeshlessModel.billboard none none } }

/-- A world holding a single meshless-tagged entity with a default
`Billboard` visual. -/
def wBill : World :=
  { ents := [(0, dBill)], nextId := 1 }

/-- An entity that is simultaneously a directional light and a (non-editor)
camera. -/
def dCamLight : EntityData :=
  { directionalLight := true, camera := true, prefabMarker := true,
    transform := true, visibility := some Vis.inherited }

/-- A world holding a single entity that is simultaneously a directional
light and a (non-editor) camera. -/
def wCamLight : World :=
  { ents := [(0, dCamLight)], nextId := 1 }

/-- A plain directional light entity. -/
def dDir : EntityData :=
  { directionalLight := true, prefabMarker := true, transform := true,
    visibility := some Vis.inherited }

/-- A world holding a single directional light. -/
def wDir : World :=
  { ents := [(0, dDir)], nextId := 1 }

/-- The editor's own camera (camera plus editor-camera marker). -/
def dEditorCam : EntityData :=
  { camera := true, editorCameraMarker := true, prefabMarker := true,
    transform := true, visibility := some Vis.inherited }

/-- A world holding the editor's own camera. -/
def wEditorCam : World :=
  { ents := [(0, dEditorCam)], nextId := 1 }

/-- A directional light with one unrelated, non-proxy child. -/
def dLightKid : EntityData :=
  { directionalLight := true, prefabMarker := true, transform := true,
    visibility := some Vis.inherited, children := [1] }

/-- A world holding a directional light with one unrelated, non-proxy
child. -/
def wLightKid : World :=
  { ents := [(0, dLightKid), (1, {})], nextId := 2 }

/-- The manifest entry kinds (`EditorIconAssetType`, source lines 117-125). -/
inductive EditorIconAssetType where
  /-- PNG images for cameras, lights, and audio. -/
  | image (path : String)
  /-- Quad mesh for putting images onto. -/
  | quad (size : ℚ × ℚ)
  /-- Icosphere mesh to make an icon clickable. -/
  | sphere (radius : ℚ)
deriving DecidableEq, Repr

/-- The untyped handle produced by building one manifest entry. -/
inductive DynAssetHandle where
  | image (path : String)
  | quadMesh (size : ℚ × ℚ)
  | sphereMesh (radius : ℚ)
deriving DecidableEq, Repr

/-- `EditorIconAssetType::build` (source lines 134-183), parameterized by
the host engine's fallible icosphere construction
(`Mesh::try_from(shape::Icosphere)`), which is external to this repository;
a successful construction yields the icosphere mesh of the requested radius,
represented here by that radius.  The outer `Option` models panics: `none`
is the `unwrap` panic on the fallback construction; `Except.error` would be
a surfaced error, which the function never produces. -/
def EditorIconAssetType.build (tryIcosphere : ℚ → Option ℚ) :
    EditorIconAssetType → Option (Except String DynAssetHandle)
  | .image path => some (Except.ok (DynAssetHandle.image path))
  | .quad size => some (Except.ok (DynAssetHandle.quadMesh size))
  | .sphere radius =>
      match tryIcosphere radius with
      | some r => some (Except.ok (DynAssetHandle.sphereMesh r))
      | none =>
          match tryIcosphere (3 / 4 : ℚ) with
          | some r => some (Except.ok (DynAssetHandle.sphereMesh r))
          | none => none

/-- `child` is listed among the `Children` of `parent` in world `w`. -/
def hasChild (w : World) (parent child : Nat) : Prop :=
  ∃ d, w.get? parent = some d ∧ child ∈ d.children

/-- The possible component data of an entity freshly spawned by a command,
tied to the command's subject `s`: a billboard proxy (whose collision child
sits at the next id and back-references `s`) parented under `s`; such a
collision child itself, whose own billboard proxy is parented under `s`; or
an object-style proxy back-referencing `s` and parented under `s`. -/
def newShape (icons : EditorIconAssets) (wfin : World) (p : Nat)
    (d' : EntityData) : Command → Prop
  | .billboard s mesh tex =>
      (d' = billboardProxyData mesh tex (p + 1) ∧
        wfin.get? (p + 1) = some (collisionChildData icons.sphere s) ∧
        hasChild wfin s p)
      ∨ (d' = collisionChildData icons.sphere s ∧
        ∃ proxyId, wfin.get? proxyId =
            some (billboardProxyData mesh tex p) ∧
          hasChild wfin s proxyId)
  | .object s mesh material =>
      d' = objectProxyData mesh material s ∧ hasChild wfin s p

/-- Selector for the two reconciliation systems. -/
inductive PassId where
  | standard
  | custom
deriving DecidableEq, Repr

/-- Run the selected reconciliation system. -/
def runPass : PassId → EditorIconAssets → World → World
  | .standard, icons, w => visualize_meshless icons w
  | .custom, icons, w => visualize_custom_meshless icons w

/-- The command list of the selected reconciliation system. -/
def passCommands : PassId → EditorIconAssets → World → List Command
  | .standard, icons, w => meshlessCommands icons w
  | .custom, icons, w => customCommands icons w

/-- At most one of the three reconciliation queries (lights, cameras, custom
meshless) matches the entity. -/
def atMostOneQuery (d : EntityData) : Prop :=
  ¬(lightQueryFilter d = true ∧ camQueryFilter d = true) ∧
  ¬(lightQueryFilter d = true ∧ d.customMeshless.isSome = true) ∧
  ¬(camQueryFilter d = true ∧ d.customMeshless.isSome = true)

instance : DecidablePred atMostOneQuery := fun d => by
  unfold atMostOneQuery; infer_instance

theorem mem_of_get? {w : World} {id : Nat} {d : EntityData}
    (h : w.get? id = some d) : (id, d) ∈ w.ents := by
  unfold World.get? at h
  cases hf : w.ents.find? (fun p => p.1 == id) with
  | none => rw [hf] at h; simp at h
  | some q =>
      rw [hf] at h
      simp only [Option.map_some'] at h
      have hq := List.mem_of_find?_eq_some hf
      have hpred := List.find?_some hf
      have h1 : q.1 = id := by simpa using hpred
      have h2 : q.2 = d := Option.some_inj.mp h
      have : q = (id, d) := Prod.ext h1 h2
      rw [← this]; exact hq

theorem get?_lt_nextId {w : World} (hb : ∀ p ∈ w.ents, p.1 < w.nextId)
    {id : Nat} {d : EntityData} (h : w.get? id = some d) : id < w.nextId :=
  hb _ (mem_of_get? h)

theorem find?_of_mem_nodup {l : List (Nat × EntityData)}
    (hnd : (l.map Prod.fst).Nodup) {p : Nat × EntityData} (hp : p ∈ l) :
    l.find? (fun q => q.1 == p.1) = some p := by
  induction l with
  | nil => cases hp
  | cons q l ih =>
      rw [List.map_cons, List.nodup_cons] at hnd
      rcases List.mem_cons.mp hp with h | h
      · subst h; simp [List.find?_cons]
      · have hne : q.1 ≠ p.1 := by
          intro he
          exact hnd.1 (he ▸ List.mem_map_of_mem Prod.fst h)
        have hb : (q.1 == p.1) = false := by
          simpa using hne
        rw [List.find?_cons, hb]
        exact ih hnd.2 h

theorem World.get?_of_mem {w : World} (hnd : (w.ents.map Prod.fst).Nodup)
    {p : Nat × EntityData} (hp : p ∈ w.ents) : w.get? p.1 = some p.2 := by
  unfold World.get?; rw [find?_of_mem_nodup hnd hp]; rfl

theorem eq_of_mem_nodup_fst {l : List (Nat × EntityData)}
    (hnd : (l.map Prod.fst).Nodup) {p q : Nat × EntityData}
    (hp : p ∈ l) (hq : q ∈ l) (h : p.1 = q.1) : p = q := by
  have h1 := find?_of_mem_nodup hnd hp
  have h2 := find?_of_mem_nodup hnd hq
  rw [h] at h1
  exact Option.some_inj.mp (h1.symm.trans h2)

theorem find?_addChildTo (l : List (Nat × EntityData)) (parent child id : Nat) :
    (addChildTo l parent child).find? (fun p => p.1 == id) =
      (l.find? (fun p => p.1 == id)).map (fun p =>
        if p.1 == parent then
          (p.1, { p.2 with children := p.2.children ++ [child] })
        else p) := by
  have hfst : ∀ p : Nat × EntityData,
      ((if (p.1 == parent : Bool) then
          (p.1, { p.2 with children := p.2.children ++ [child] })
        else p).1) = p.1 := by
    intro p; by_cases hp : (p.1 == parent : Bool) <;> simp [hp]
  unfold addChildTo
  rw [List.find?_map]
  congr 2
  funext p
  by_cases hp : (p.1 == parent : Bool) <;> simp [Function.comp, hp]

theorem applyCommand_nextId (icons : EditorIconAssets) (w : World)
    (c : Command) :
    (applyCommand icons w c).nextId = w.nextId + c.spawnCount := by
  cases c <;> rfl

theorem le_applyCommand_nextId (icons : EditorIconAssets) (w : World)
    (c : Command) : w.nextId ≤ (applyCommand icons w c).nextId := by
  rw [applyCommand_nextId]; exact Nat.le_add_right _ _

theorem applyCommand_get?_old (icons : EditorIconAssets) (w : World)
    (c : Command) {id : Nat} (hid : id < w.nextId) :
    (applyCommand icons w c).get? id =
      if id = c.subject then
        (w.get? id).map (fun d => { d with children := d.children ++ [w.nextId] })
      else w.get? id := by
  have hne1 : (w.nextId == id : Bool) = false := by
    simp [Nat.ne_of_gt hid]
  have hne2 : (w.nextId + 1 == id : Bool) = false := by
    simp; omega
  cases c with
  | billboard s mesh tex =>
      show World.get?
        { ents := addChildTo (w.ents ++ _) s w.nextId, nextId := _ } id = _
      unfold World.get?
      rw [find?_addChildTo, List.find?_append]
      have hnew : List.find? (fun p => p.1 == id)
          [(w.nextId, billboardProxyData mesh tex (w.nextId + 1)),
           (w.nextId + 1, collisionChildData icons.sphere s)] = none := by
        simp [List.find?_cons, hne1, hne2]
      rw [hnew, Option.or_none]
      cases hf : w.ents.find? (fun p => p.1 == id) with
      | none => simp [World.get?, hf]
      | some q =>
          have hq : q.1 = id := by simpa using List.find?_some hf
          by_cases hs : id = s <;>
            simp [World.get?, hf, Command.subject, hs, hq]
  | object s mesh material =>
      show World.get?
        { ents := addChildTo (w.ents ++ _) s w.nextId, nextId := _ } id = _
      unfold World.get?
      rw [find?_addChildTo, List.find?_append]
      have hnew : List.find? (fun p => p.1 == id)
          [(w.nextId, objectProxyData mesh material s)] = none := by
        simp [List.find?_cons, hne1]
      rw [hnew, Option.or_none]
      cases hf : w.ents.find? (fun p => p.1 == id) with
      | none => simp [World.get?, hf]
      | some q =>
          have hq : q.1 = id := by simpa using List.find?_some hf
          by_cases hs : id = s <;>
            simp [World.get?, hf, Command.subject, hs, hq]

theorem applyCommand_get?_proxy (icons : EditorIconAssets) (w : World)
    (c : Command) (hb : ∀ p ∈ w.ents, p.1 < w.nextId)
    (hs : c.subject < w.nextId) :
    (applyCommand icons w c).get? w.nextId = some (c.proxyData w.nextId) := by
  have hold : w.ents.find? (fun p => p.1 == w.nextId) = none := by
    rw [List.find?_eq_none]
    intro p hp
    simp [Nat.ne_of_lt (hb p hp)]
  have hsub : (w.nextId == c.subject : Bool) = false := by
    simp [Nat.ne_of_gt hs]
  cases c with
  | billboard s mesh tex =>
      have hs' : ¬(w.nextId = s) := Nat.ne_of_gt hs
      unfold World.get? applyCommand
      rw [find?_addChildTo, List.find?_append, hold]
      simp only [Option.none_or, List.find?_cons, beq_self_eq_true]
      simp [hs', Command.proxyData]
  | object s mesh material =>
      have hs' : ¬(w.nextId = s) := Nat.ne_of_gt hs
      unfold World.get? applyCommand
      rw [find?_addChildTo, List.find?_append, hold]
      simp only [Option.none_or, List.find?_cons, beq_self_eq_true]
      simp [hs', Command.proxyData]

theorem applyCommand_get?_coll (icons : EditorIconAssets) (w : World)
    (s : Nat) (mesh : MeshHandle) (tex : ImageHandle)
    (hb : ∀ p ∈ w.ents, p.1 < w.nextId) (hs : s < w.nextId) :
    (applyCommand icons w (Command.billboard s mesh tex)).get? (w.nextId + 1) =
      some (collisionChildData icons.sphere s) := by
  have hold : w.ents.find? (fun p => p.1 == w.nextId + 1) = none := by
    rw [List.find?_eq_none]
    intro p hp
    have := hb p hp
    simp; omega
  have hne : (w.nextId == w.nextId + 1 : Bool) = false := by simp
  have hsub : ¬(w.nextId + 1 = s) := by omega
  unfold World.get? applyCommand
  rw [find?_addChildTo, List.find?_append, hold]
  simp [List.find?_cons, hne, hsub]

theorem applyCommand_get?_none (icons : EditorIconAssets) (w : World)
    (c : Command) (hb : ∀ p ∈ w.ents, p.1 < w.nextId) {id : Nat}
    (hge : (applyCommand icons w c).nextId ≤ id) :
    (applyCommand icons w c).get? id = none := by
  rw [applyCommand_nextId] at hge
  have hold : w.ents.find? (fun p => p.1 == id) = none := by
    rw [List.find?_eq_none]
    intro p hp
    have h1 := hb p hp
    have h2 : c.spawnCount ≥ 1 := by cases c <;> simp [Command.spawnCount]
    simp; omega
  cases c with
  | billboard s mesh tex =>
      simp only [Command.spawnCount] at hge
      have hne1 : (w.nextId == id : Bool) = false := by simp; omega
      have hne2 : (w.nextId + 1 == id : Bool) = false := by simp; omega
      unfold World.get? applyCommand
      rw [find?_addChildTo, List.find?_append, hold]
      simp [List.find?_cons, hne1, hne2]
  | object s mesh material =>
      simp only [Command.spawnCount] at hge
      have hne1 : (w.nextId == id : Bool) = false := by simp; omega
      unfold World.get? applyCommand
      rw [find?_addChildTo, List.find?_append, hold]
      simp [List.find?_cons, hne1]

theorem map_fst_addChildTo (l : List (Nat × EntityData)) (parent child : Nat) :
    (addChildTo l parent child).map Prod.fst = l.map Prod.fst := by
  unfold addChildTo
  rw [List.map_map]
  congr 1
  funext p
  by_cases hp : (p.1 == parent : Bool) <;> simp [Function.comp, hp]

theorem mem_addChildTo {l : List (Nat × EntityData)} {parent child : Nat}
    {q : Nat × EntityData} (hq : q ∈ addChildTo l parent child) :
    ∃ p ∈ l,
      q = (p.1, { p.2 with children := p.2.children ++ [child] }) ∨ q = p := by
  unfold addChildTo at hq
  rcases List.mem_map.mp hq with ⟨p, hp, he⟩
  by_cases h : (p.1 == parent : Bool)
  · exact ⟨p, hp, Or.inl (by rw [if_pos h] at he; exact he.symm)⟩
  · exact ⟨p, hp, Or.inr (by rw [if_neg h] at he; exact he.symm)⟩

theorem applyCommand_wf (icons : EditorIconAssets) (w : World) (c : Command)
    (hwf : w.wf) : (applyCommand icons w c).wf := by
  obtain ⟨hnd, hb, hch⟩ := hwf
  have hnext := applyCommand_nextId icons w c
  cases c with
  | billboard s mesh tex =>
      simp only [Command.spawnCount] at hnext
      refine ⟨?_, ?_, ?_⟩
      · show ((addChildTo (w.ents ++ _) s w.nextId).map Prod.fst).Nodup
        rw [map_fst_addChildTo, List.map_append, List.nodup_append]
        refine ⟨hnd, by simp, ?_⟩
        intro a ha ha'
        rcases List.mem_map.mp ha with ⟨p, hp, rfl⟩
        have h1 := hb p hp
        simp at ha'
        omega
      · intro p hp
        rcases mem_addChildTo hp with ⟨q, hq, hcase⟩
        have h1 : p.1 = q.1 := by rcases hcase with h | h <;> subst h <;> rfl
        rw [hnext, h1]
        rcases List.mem_append.mp hq with h | h
        · have := hb _ h; omega
        · simp at h
          rcases h with h | h <;> subst h <;> simp
      · intro p hp ch hchm
        rcases mem_addChildTo hp with ⟨q, hq, hcase⟩
        rw [hnext]
        have hin : ch ∈ q.2.children ∨ ch = w.nextId := by
          rcases hcase with h | h
          · subst h
            simp only at hchm
            rcases List.mem_append.mp hchm with h' | h'
            · exact Or.inl h'
            · simp at h'; exact Or.inr h'
          · subst h; exact Or.inl hchm
        rcases List.mem_append.mp hq with h | h
        · rcases hin with h' | h'
          · have := hch _ h _ h'; omega
          · omega
        · simp at h
          rcases h with h | h <;> subst h
          · rcases hin with h' | h'
            · simp [billboardProxyData] at h'
              omega
            · omega
          · rcases hin with h' | h'
            · simp [collisionChildData] at h'
            · omega
  | object s mesh material =>
      simp only [Command.spawnCount] at hnext
      refine ⟨?_, ?_, ?_⟩
      · show ((addChildTo (w.ents ++ _) s w.nextId).map Prod.fst).Nodup
        rw [map_fst_addChildTo, List.map_append, List.nodup_append]
        refine ⟨hnd, by simp, ?_⟩
        intro a ha ha'
        rcases List.mem_map.mp ha with ⟨p, hp, rfl⟩
        have h1 := hb p hp
        simp at ha'
        omega
      · intro p hp
        rcases mem_addChildTo hp with ⟨q, hq, hcase⟩
        have h1 : p.1 = q.1 := by rcases hcase with h | h <;> subst h <;> rfl
        rw [hnext, h1]
        rcases List.mem_append.mp hq with h | h
        · have := hb _ h; omega
        · simp at h
          subst h; simp
      · intro p hp ch hchm
        rcases mem_addChildTo hp with ⟨q, hq, hcase⟩
        rw [hnext]
        have hin : ch ∈ q.2.children ∨ ch = w.nextId := by
          rcases hcase with h | h
          · subst h
            simp only at hchm
            rcases List.mem_append.mp hchm with h' | h'
            · exact Or.inl h'
            · simp at h'; exact Or.inr h'
          · subst h; exact Or.inl hchm
        rcases List.mem_append.mp hq with h | h
        · rcases hin with h' | h'
          · have := hch _ h _ h'; omega
          · omega
        · simp at h
          subst h
          rcases hin with h' | h'
          · simp [objectProxyData] at h'
          · omega

theorem foldl_nextId_le (icons : EditorIconAssets) (cs : List Command)
    (w : World) : w.nextId ≤ (cs.foldl (applyCommand icons) w).nextId := by
  induction cs generalizing w with
  | nil => exact le_refl _
  | cons c cs ih =>
      exact le_trans (le_applyCommand_nextId icons w c) (ih _)

theorem foldl_wf (icons : EditorIconAssets) (cs : List Command) (w : World)
    (hwf : w.wf) : (cs.foldl (applyCommand icons) w).wf := by
  induction cs generalizing w with
  | nil => exact hwf
  | cons c cs ih => exact ih _ (applyCommand_wf icons w c hwf)

theorem foldl_get?_frame (icons : EditorIconAssets) (cs : List Command)
    (w : World) {id : Nat} (hid : id < w.nextId)
    (hns : ∀ c ∈ cs, c.subject ≠ id) :
    (cs.foldl (applyCommand icons) w).get? id = w.get? id := by
  induction cs generalizing w with
  | nil => rfl
  | cons c cs ih =>
      rw [List.foldl_cons]
      have h1 : (applyCommand icons w c).get? id = w.get? id := by
        rw [applyCommand_get?_old icons w c hid, if_neg]
        intro he
        exact hns c (List.mem_cons_self _ _) he.symm
      rw [← h1]
      exact ih (applyCommand icons w c)
        (lt_of_lt_of_le hid (le_applyCommand_nextId icons w c))
        (fun c' hc' => hns c' (List.mem_cons_of_mem _ hc'))

theorem foldl_get?_flags (icons : EditorIconAssets) (cs : List Command) :
    ∀ (w : World) (id : Nat) (d : EntityData), w.get? id = some d →
      id < w.nextId →
      ∃ ch, (cs.foldl (applyCommand icons) w).get? id =
        some { d with children := ch } := by
  induction cs with
  | nil =>
      intro w id d hget _
      exact ⟨d.children, by simpa using hget⟩
  | cons c cs ih =>
      intro w id d hget hid
      rw [List.foldl_cons]
      have hid' : id < (applyCommand icons w c).nextId :=
        lt_of_lt_of_le hid (le_applyCommand_nextId icons w c)
      by_cases hs : id = c.subject
      · have h1 : (applyCommand icons w c).get? id =
            some { d with children := d.children ++ [w.nextId] } := by
          rw [applyCommand_get?_old icons w c hid, if_pos hs, hget]; rfl
        rcases ih _ _ _ h1 hid' with ⟨ch, hch⟩
        exact ⟨ch, hch⟩
      · have h1 : (applyCommand icons w c).get? id = some d := by
          rw [applyCommand_get?_old icons w c hid, if_neg hs, hget]
        exact ih _ _ _ h1 hid'

theorem foldl_children_append (icons : EditorIconAssets)
    (cs : List Command) :
    ∀ (w : World) (id : Nat) (d : EntityData), w.get? id = some d →
      id < w.nextId →
      ∃ ext, (cs.foldl (applyCommand icons) w).get? id =
        some { d with children := d.children ++ ext } := by
  induction cs with
  | nil =>
      intro w id d hget _
      exact ⟨[], by rw [List.foldl_nil, hget, List.append_nil]⟩
  | cons c cs ih =>
      intro w id d hget hid
      rw [List.foldl_cons]
      have hid' : id < (applyCommand icons w c).nextId :=
        lt_of_lt_of_le hid (le_applyCommand_nextId icons w c)
      by_cases hs : id = c.subject
      · have h1 : (applyCommand icons w c).get? id =
            some { d with children := d.children ++ [w.nextId] } := by
          rw [applyCommand_get?_old icons w c hid, if_pos hs, hget]; rfl
        rcases ih _ _ _ h1 hid' with ⟨ext, hext⟩
        refine ⟨[w.nextId] ++ ext, ?_⟩
        rw [← List.append_assoc]
        exact hext
      · have h1 : (applyCommand icons w c).get? id = some d := by
          rw [applyCommand_get?_old icons w c hid, if_neg hs, hget]
        exact ih _ _ _ h1 hid'

theorem foldl_spawn (icons : EditorIconAssets) (cs : List Command) :
    ∀ (w : World) (id : Nat) (d : EntityData) (c₀ : Command),
      w.wf →
      w.get? id = some d →
      (∀ c ∈ cs, c.subject < w.nextId) →
      (∀ c ∈ cs, c.subject = id → c = c₀) →
      cs.countP (fun c => c.subject == id) = 1 →
      c₀.subject = id →
      ∃ p, w.nextId ≤ p ∧
        (cs.foldl (applyCommand icons) w).get? id =
          some { d with children := d.children ++ [p] } ∧
        spawnedData icons (cs.foldl (applyCommand icons) w) p c₀ := by
  induction cs with
  | nil =>
      intro w id d c₀ _ _ _ _ hcnt _
      simp at hcnt
  | cons c cs ih =>
      intro w id d c₀ hwf hget hsub huni hcnt hc₀
      obtain ⟨hnd, hb, hch⟩ := hwf
      have hid : id < w.nextId := get?_lt_nextId hb hget
      rw [List.countP_cons] at hcnt
      have hsubc : c.subject < w.nextId := hsub c (List.mem_cons_self _ _)
      rw [List.foldl_cons]
      by_cases hcs : c.subject = id
      · have hcc : c = c₀ := huni c (List.mem_cons_self _ _) hcs
        subst hcc
        have hz : cs.countP (fun c => c.subject == id) = 0 := by
          simp only [hcs, beq_self_eq_true, if_pos] at hcnt
          omega
        have hns : ∀ c' ∈ cs, c'.subject ≠ id := by
          rw [List.countP_eq_zero] at hz
          intro c' hc' he
          exact hz c' hc' (by simp [he])
        set w₁ := applyCommand icons w c with hw₁
        have hnext₁ : w.nextId < w₁.nextId := by
          rw [hw₁, applyCommand_nextId]
          have : 1 ≤ c.spawnCount := by cases c <;> simp [Command.spawnCount]
          omega
        have hA : w₁.get? id =
            some { d with children := d.children ++ [w.nextId] } := by
          rw [hw₁, applyCommand_get?_old icons w c hid, if_pos hcs.symm, hget]
          rfl
        have hframe : (cs.foldl (applyCommand icons) w₁).get? id =
            w₁.get? id :=
          foldl_get?_frame icons cs w₁ (lt_trans hid hnext₁) hns
        have hproxy : w₁.get? w.nextId = some (c.proxyData w.nextId) :=
          applyCommand_get?_proxy icons w c hb hsubc
        have hframeP : (cs.foldl (applyCommand icons) w₁).get? w.nextId =
            w₁.get? w.nextId := by
          apply foldl_get?_frame icons cs w₁ hnext₁
          intro c' hc' he
          have := hsub c' (List.mem_cons_of_mem _ hc')
          omega
        refine ⟨w.nextId, le_refl _, by rw [hframe, hA], ?_⟩
        cases c with
        | billboard s mesh tex =>
            have hcoll : w₁.get? (w.nextId + 1) =
                some (collisionChildData icons.sphere s) :=
              applyCommand_get?_coll icons w s mesh tex hb hsubc
            have hnext₂ : w.nextId + 1 < w₁.nextId := by
              rw [hw₁, applyCommand_nextId]
              simp [Command.spawnCount]
            have hframeC :
                (cs.foldl (applyCommand icons) w₁).get? (w.nextId + 1) =
                  w₁.get? (w.nextId + 1) := by
              apply foldl_get?_frame icons cs w₁ hnext₂
              intro c' hc' he
              have := hsub c' (List.mem_cons_of_mem _ hc')
              omega
            exact ⟨by rw [hframeP, hproxy]; rfl, by rw [hframeC, hcoll]⟩
        | object s mesh material =>
            show (cs.foldl (applyCommand icons) w₁).get? w.nextId =
              some (objectProxyData mesh material s)
            rw [hframeP, hproxy]
            rfl
      · have hpc : (c.subject == id : Bool) = false := by simp [hcs]
        rw [hpc] at hcnt
        simp only [Bool.false_eq_true, if_false, Nat.add_zero] at hcnt
        set w₁ := applyCommand icons w c with hw₁
        have hwf₁ : w₁.wf := applyCommand_wf icons w c ⟨hnd, hb, hch⟩
        have hget₁ : w₁.get? id = some d := by
          rw [hw₁, applyCommand_get?_old icons w c hid, if_neg
            (fun he => hcs he.symm), hget]
        have hle : w.nextId ≤ w₁.nextId := le_applyCommand_nextId icons w c
        rcases ih w₁ id d c₀ hwf₁ hget₁
            (fun c' hc' => lt_of_lt_of_le (hsub c' (List.mem_cons_of_mem _ hc')) hle)
            (fun c' hc' => huni c' (List.mem_cons_of_mem _ hc'))
            hcnt hc₀ with ⟨p, hp1, hp2, hp3⟩
        exact ⟨p, le_trans hle hp1, hp2, hp3⟩

theorem lightCmd_some {icons : EditorIconAssets} {w : World}
    {p : Nat × EntityData} {c : Command}
    (h : lightCmd icons w p = some c) :
    c.subject = p.1 ∧ lightQueryFilter p.2 = true ∧
      missingProxy w p.2 = true ∧ c.isBillboard = true := by
  unfold lightCmd at h
  by_cases hc : (lightQueryFilter p.2 && missingProxy w p.2 : Bool)
  · rw [if_pos hc] at h
    cases him : lightImage icons (lightAnyOf p.2) with
    | none => rw [him] at h; cases h
    | some img =>
        rw [him] at h
        have hc' := Option.some_inj.mp h
        subst hc'
        rw [Bool.and_eq_true] at hc
        exact ⟨rfl, hc.1, hc.2, rfl⟩
  · rw [if_neg hc] at h; cases h

theorem camCmd_some {icons : EditorIconAssets} {w : World}
    {p : Nat × EntityData} {c : Command}
    (h : camCmd icons w p = some c) :
    c.subject = p.1 ∧ camQueryFilter p.2 = true ∧
      missingProxy w p.2 = true ∧ c.isBillboard = true := by
  unfold camCmd at h
  by_cases hc : (camQueryFilter p.2 && missingProxy w p.2 : Bool)
  · rw [if_pos hc] at h
    have hc' := Option.some_inj.mp h
    subst hc'
    rw [Bool.and_eq_true] at hc
    exact ⟨rfl, hc.1, hc.2, rfl⟩
  · rw [if_neg hc] at h; cases h

theorem customCmd_some {icons : EditorIconAssets} {w : World}
    {p : Nat × EntityData} {c : Command}
    (h : customCmd icons w p = some c) :
    c.subject = p.1 ∧ missingProxy w p.2 = true ∧
      ∃ cm, p.2.customMeshless = some cm ∧
        c = resolveMeshless icons p.1 cm.visual := by
  unfold customCmd at h
  cases hcm : p.2.customMeshless with
  | none => rw [hcm] at h; cases h
  | some cm =>
      rw [hcm] at h
      have h' : (if missingProxy w p.2 = true then
          some (resolveMeshless icons p.1 cm.visual) else none) = some c := h
      by_cases hm : (missingProxy w p.2 : Bool)
      · rw [if_pos hm] at h'
        have hc' := Option.some_inj.mp h'
        subst hc'
        have hs : (resolveMeshless icons p.1 cm.visual).subject = p.1 := by
          cases cm.visual <;> rfl
        exact ⟨hs, hm, cm, rfl, rfl⟩
      · rw [if_neg hm] at h'; cases h'

theorem meshlessCommands_subject_lt (icons : EditorIconAssets) (w : World)
    (hb : ∀ p ∈ w.ents, p.1 < w.nextId) :
    ∀ c ∈ meshlessCommands icons w, c.subject < w.nextId := by
  intro c hc
  rcases List.mem_append.mp hc with h | h <;>
    rcases List.mem_filterMap.mp h with ⟨p, hp, hf⟩
  · rw [(lightCmd_some hf).1]; exact hb p hp
  · rw [(camCmd_some hf).1]; exact hb p hp

theorem customCommands_subject_lt (icons : EditorIconAssets) (w : World)
    (hb : ∀ p ∈ w.ents, p.1 < w.nextId) :
    ∀ c ∈ customCommands icons w, c.subject < w.nextId := by
  intro c hc
  rcases List.mem_filterMap.mp hc with ⟨p, hp, hf⟩
  rw [(customCmd_some hf).1]; exact hb p hp

theorem meshlessCommands_no_subject (icons : EditorIconAssets) (w : World)
    {id : Nat} {d : EntityData}
    (hnd : (w.ents.map Prod.fst).Nodup) (hget : w.get? id = some d)
    (hl : lightCmd icons w (id, d) = none)
    (hc : camCmd icons w (id, d) = none) :
    ∀ c ∈ meshlessCommands icons w, c.subject ≠ id := by
  intro c hcm he
  have hmem : (id, d) ∈ w.ents := mem_of_get? hget
  rcases List.mem_append.mp hcm with h | h <;>
    rcases List.mem_filterMap.mp h with ⟨p, hp, hf⟩
  · have h1 : p.1 = id := by rw [← (lightCmd_some hf).1, he]
    have h2 : p = (id, d) := eq_of_mem_nodup_fst hnd hp hmem h1
    rw [h2, hl] at hf; cases hf
  · have h1 : p.1 = id := by rw [← (camCmd_some hf).1, he]
    have h2 : p = (id, d) := eq_of_mem_nodup_fst hnd hp hmem h1
    rw [h2, hc] at hf; cases hf

theorem customCommands_no_subject (icons : EditorIconAssets) (w : World)
    {id : Nat} {d : EntityData}
    (hnd : (w.ents.map Prod.fst).Nodup) (hget : w.get? id = some d)
    (hc : customCmd icons w (id, d) = none) :
    ∀ c ∈ customCommands icons w, c.subject ≠ id := by
  intro c hcm he
  have hmem : (id, d) ∈ w.ents := mem_of_get? hget
  rcases List.mem_filterMap.mp hcm with ⟨p, hp, hf⟩
  have h1 : p.1 = id := by rw [← (customCmd_some hf).1, he]
  have h2 : p = (id, d) := eq_of_mem_nodup_fst hnd hp hmem h1
  rw [h2, hc] at hf; cases hf

theorem countP_subject_filterMap_zero_of_ne
    (f : Nat × EntityData → Option Command) (l : List (Nat × EntityData))
    (id : Nat)
    (hsubj : ∀ p c, f p = some c → c.subject = p.1)
    (hne : ∀ p ∈ l, p.1 ≠ id) :
    (l.filterMap f).countP (fun c => c.subject == id) = 0 := by
  rw [List.countP_eq_zero]
  intro c hc
  rcases List.mem_filterMap.mp hc with ⟨p, hp, hf⟩
  have h1 := hsubj p c hf
  simp [h1, hne p hp]

theorem countP_subject_filterMap_one
    (f : Nat × EntityData → Option Command) (l : List (Nat × EntityData))
    (id : Nat) (d : EntityData) (c₀ : Command)
    (hsubj : ∀ p c, f p = some c → c.subject = p.1)
    (hnd : (l.map Prod.fst).Nodup)
    (hmem : (id, d) ∈ l)
    (hf : f (id, d) = some c₀) :
    (l.filterMap f).countP (fun c => c.subject == id) = 1 := by
  rcases List.append_of_mem hmem with ⟨s, t, rfl⟩
  have hnotin : id ∉ s.map Prod.fst ∧ id ∉ t.map Prod.fst := by
    rw [List.map_append, List.map_cons] at hnd
    have := List.nodup_middle.mp hnd
    rw [List.nodup_cons] at this
    have h1 := this.1
    rw [List.mem_append] at h1
    exact ⟨fun h => h1 (Or.inl h), fun h => h1 (Or.inr h)⟩
  have hs : ∀ p ∈ s, p.1 ≠ id := by
    intro p hp he
    exact hnotin.1 (he ▸ List.mem_map_of_mem Prod.fst hp)
  have ht : ∀ p ∈ t, p.1 ≠ id := by
    intro p hp he
    exact hnotin.2 (he ▸ List.mem_map_of_mem Prod.fst hp)
  rw [List.filterMap_append, List.countP_append,
    countP_subject_filterMap_zero_of_ne f s id hsubj hs,
    List.filterMap_cons, hf]
  rw [List.countP_cons, countP_subject_filterMap_zero_of_ne f t id hsubj ht]
  have h1 : c₀.subject = id := hsubj _ _ hf
  simp [h1]

theorem countP_subject_filterMap_zero
    (f : Nat × EntityData → Option Command) (l : List (Nat × EntityData))
    (id : Nat) (d : EntityData)
    (hsubj : ∀ p c, f p = some c → c.subject = p.1)
    (hnd : (l.map Prod.fst).Nodup)
    (hmem : (id, d) ∈ l)
    (hf : f (id, d) = none) :
    (l.filterMap f).countP (fun c => c.subject == id) = 0 := by
  rw [List.countP_eq_zero]
  intro c hc
  rcases List.mem_filterMap.mp hc with ⟨p, hp, hfp⟩
  have h1 := hsubj p c hfp
  intro hb
  have h2 : p.1 = id := by
    rw [← h1]; simpa using hb
  have h3 : p = (id, d) := eq_of_mem_nodup_fst hnd hp hmem h2
  rw [h3, hf] at hfp
  cases hfp

theorem filterMap_subject_unique
    (f : Nat × EntityData → Option Command) (l : List (Nat × EntityData))
    (id : Nat) (d : EntityData) (c₀ : Command)
    (hsubj : ∀ p c, f p = some c → c.subject = p.1)
    (hnd : (l.map Prod.fst).Nodup)
    (hmem : (id, d) ∈ l)
    (hf : f (id, d) = some c₀) :
    ∀ c ∈ l.filterMap f, c.subject = id → c = c₀ := by
  intro c hc he
  rcases List.mem_filterMap.mp hc with ⟨p, hp, hfp⟩
  have h1 : p.1 = id := by rw [← hsubj p c hfp, he]
  have h2 : p = (id, d) := eq_of_mem_nodup_fst hnd hp hmem h1
  rw [h2, hf] at hfp
  exact (Option.some_inj.mp hfp).symm

theorem custom_spawn (icons : EditorIconAssets) (w : World) (id : Nat)
    (d : EntityData) (m : MeshlessModel)
    (hwf : w.wf) (hget : w.get? id = some d)
    (hcm : d.customMeshless = some { visual := m })
    (hmiss : missingProxy w d = true) :
    ∃ p, w.nextId ≤ p ∧
      (visualize_custom_meshless icons w).get? id =
        some { d with children := d.children ++ [p] } ∧
      spawnedData icons (visualize_custom_meshless icons w) p
        (resolveMeshless icons id m) := by
  obtain ⟨hnd, hb, hch⟩ := hwf
  have hmem : (id, d) ∈ w.ents := mem_of_get? hget
  have hf : customCmd icons w (id, d) = some (resolveMeshless icons id m) := by
    simp [customCmd, hcm, hmiss]
  have hsubj : ∀ p c, customCmd icons w p = some c → c.subject = p.1 :=
    fun p c h => (customCmd_some h).1
  have hcnt : (customCommands icons w).countP
      (fun c => c.subject == id) = 1 :=
    countP_subject_filterMap_one _ _ id d _ hsubj hnd hmem hf
  have huni : ∀ c ∈ customCommands icons w, c.subject = id →
      c = resolveMeshless icons id m :=
    filterMap_subject_unique _ _ id d _ hsubj hnd hmem hf
  have hc₀ : (resolveMeshless icons id m).subject = id := by
    cases m <;> rfl
  exact foldl_spawn icons (customCommands icons w) w id d _
    ⟨hnd, hb, hch⟩ hget (customCommands_subject_lt icons w hb) huni hcnt hc₀

theorem standard_spawn_light (icons : EditorIconAssets) (w : World)
    (id : Nat) (d : EntityData) (c₀ : Command)
    (hwf : w.wf) (hget : w.get? id = some d)
    (hlc : lightCmd icons w (id, d) = some c₀)
    (hcc : camCmd icons w (id, d) = none) :
    ∃ p, w.nextId ≤ p ∧
      (visualize_meshless icons w).get? id =
        some { d with children := d.children ++ [p] } ∧
      spawnedData icons (visualize_meshless icons w) p c₀ := by
  obtain ⟨hnd, hb, hch⟩ := hwf
  have hmem : (id, d) ∈ w.ents := mem_of_get? hget
  have hsubjL : ∀ p c, lightCmd icons w p = some c → c.subject = p.1 :=
    fun p c h => (lightCmd_some h).1
  have hsubjC : ∀ p c, camCmd icons w p = some c → c.subject = p.1 :=
    fun p c h => (camCmd_some h).1
  have hcnt : (meshlessCommands icons w).countP
      (fun c => c.subject == id) = 1 := by
    unfold meshlessCommands
    rw [List.countP_append,
      countP_subject_filterMap_one _ _ id d _ hsubjL hnd hmem hlc,
      countP_subject_filterMap_zero _ _ id d hsubjC hnd hmem hcc]
  have huni : ∀ c ∈ meshlessCommands icons w, c.subject = id → c = c₀ := by
    intro c hc he
    rcases List.mem_append.mp hc with h | h
    · exact filterMap_subject_unique _ _ id d _ hsubjL hnd hmem hlc c h he
    · rcases List.mem_filterMap.mp h with ⟨p, hp, hf⟩
      have h1 : p.1 = id := by rw [← hsubjC p c hf, he]
      have h2 : p = (id, d) := eq_of_mem_nodup_fst hnd hp hmem h1
      rw [h2, hcc] at hf; cases hf
  have hc₀ : c₀.subject = id := (lightCmd_some hlc).1
  exact foldl_spawn icons (meshlessCommands icons w) w id d _
    ⟨hnd, hb, hch⟩ hget (meshlessCommands_subject_lt icons w hb) huni hcnt hc₀

theorem standard_spawn_cam (icons : EditorIconAssets) (w : World)
    (id : Nat) (d : EntityData) (c₀ : Command)
    (hwf : w.wf) (hget : w.get? id = some d)
    (hlc : lightCmd icons w (id, d) = none)
    (hcc : camCmd icons w (id, d) = some c₀) :
    ∃ p, w.nextId ≤ p ∧
      (visualize_meshless icons w).get? id =
        some { d with children := d.children ++ [p] } ∧
      spawnedData icons (visualize_meshless icons w) p c₀ := by
  obtain ⟨hnd, hb, hch⟩ := hwf
  have hmem : (id, d) ∈ w.ents := mem_of_get? hget
  have hsubjL : ∀ p c, lightCmd icons w p = some c → c.subject = p.1 :=
    fun p c h => (lightCmd_some h).1
  have hsubjC : ∀ p c, camCmd icons w p = some c → c.subject = p.1 :=
    fun p c h => (camCmd_some h).1
  have hcnt : (meshlessCommands icons w).countP
      (fun c => c.subject == id) = 1 := by
    unfold meshlessCommands
    rw [List.countP_append,
      countP_subject_filterMap_zero _ _ id d hsubjL hnd hmem hlc,
      countP_subject_filterMap_one _ _ id d _ hsubjC hnd hmem hcc]
  have huni : ∀ c ∈ meshlessCommands icons w, c.subject = id → c = c₀ := by
    intro c hc he
    rcases List.mem_append.mp hc with h | h
    · rcases List.mem_filterMap.mp h with ⟨p, hp, hf⟩
      have h1 : p.1 = id := by rw [← hsubjL p c hf, he]
      have h2 : p = (id, d) := eq_of_mem_nodup_fst hnd hp hmem h1
      rw [h2, hlc] at hf; cases hf
    · exact filterMap_subject_unique _ _ id d _ hsubjC hnd hmem hcc c h he
  have hc₀ : c₀.subject = id := (camCmd_some hcc).1
  exact foldl_spawn icons (meshlessCommands icons w) w id d _
    ⟨hnd, hb, hch⟩ hget (meshlessCommands_subject_lt icons w hb) huni hcnt hc₀

theorem kind_spawn (icons : EditorIconAssets) (w : World) (id : Nat)
    (d : EntityData) (k : SubjectKind)
    (hwf : w.wf) (hget : w.get? id = some d)
    (hk : kindMatches k d) (hmiss : missingProxy w d = true) :
    ∃ p, w.nextId ≤ p ∧
      (passFor k icons w).get? id =
        some { d with children := d.children ++ [p] } ∧
      spawnedData icons (passFor k icons w) p (expectedCommand icons id k) := by
  cases k with
  | directional =>
      obtain ⟨h1, h2, h3, h4, h5, h6, h7, h8⟩ := hk
      have hlc : lightCmd icons w (id, d) =
          some (Command.billboard id icons.square icons.directional) := by
        simp [lightCmd, lightQueryFilter, lightAnyOf, lightImage,
          h1, h6, h7, h8, hmiss]
      have hcc : camCmd icons w (id, d) = none := by
        simp [camCmd, camQueryFilter, h4]
      exact standard_spawn_light icons w id d _ hwf hget hlc hcc
  | spot =>
      obtain ⟨h1, h2, h3, h4, h5, h6, h7, h8⟩ := hk
      have hlc : lightCmd icons w (id, d) =
          some (Command.billboard id icons.square icons.spot) := by
        simp [lightCmd, lightQueryFilter, lightAnyOf, lightImage,
          h1, h2, h6, h7, h8, hmiss]
      have hcc : camCmd icons w (id, d) = none := by
        simp [camCmd, camQueryFilter, h4]
      exact standard_spawn_light icons w id d _ hwf hget hlc hcc
  | point =>
      obtain ⟨h1, h2, h3, h4, h5, h6, h7, h8⟩ := hk
      have hlc : lightCmd icons w (id, d) =
          some (Command.billboard id icons.square icons.point) := by
        simp [lightCmd, lightQueryFilter, lightAnyOf, lightImage,
          h1, h2, h3, h6, h7, h8, hmiss]
      have hcc : camCmd icons w (id, d) = none := by
        simp [camCmd, camQueryFilter, h4]
      exact standard_spawn_light icons w id d _ hwf hget hlc hcc
  | cam =>
      obtain ⟨h1, h2, h3, h4, h5, h6, h7, h8, h9⟩ := hk
      have hlc : lightCmd icons w (id, d) = none := by
        simp [lightCmd, lightQueryFilter, h1, h2, h3]
      have hcc : camCmd icons w (id, d) =
          some (Command.billboard id icons.square icons.camera) := by
        simp [camCmd, camQueryFilter, h4, h5, h7, h8, h9, hmiss]
      exact standard_spawn_cam icons w id d _ hwf hget hlc hcc
  | meshless m =>
      obtain ⟨h1, h2, h3, h4, h5⟩ := hk
      exact custom_spawn icons w id d m hwf hget h5 hmiss

theorem hasBBM_applyCommand (icons : EditorIconAssets) (w : World)
    (c : Command) {x : Nat} (hx : x < w.nextId) :
    hasBillboardMeshHandle (applyCommand icons w c) x =
      hasBillboardMeshHandle w x := by
  unfold hasBillboardMeshHandle
  rw [applyCommand_get?_old icons w c hx]
  by_cases hs : x = c.subject
  · rw [if_pos hs]
    cases hg : w.get? x <;> simp
  · rw [if_neg hs]

theorem hasBBM_foldl (icons : EditorIconAssets) (cs : List Command) :
    ∀ (w : World) {x : Nat}, x < w.nextId →
      hasBillboardMeshHandle (cs.foldl (applyCommand icons) w) x =
        hasBillboardMeshHandle w x := by
  induction cs with
  | nil => intro w x _; rfl
  | cons c cs ih =>
      intro w x hx
      rw [List.foldl_cons,
        ih _ (lt_of_lt_of_le hx (le_applyCommand_nextId icons w c)),
        hasBBM_applyCommand icons w c hx]

theorem recognized_applyCommand (icons : EditorIconAssets) (w : World)
    (c : Command) {id : Nat} {d : EntityData}
    (hwf : w.wf) (hget : w.get? id = some d) :
    recognizedProxyChildren (applyCommand icons w c) id =
      recognizedProxyChildren w id +
        (if c.subject = id ∧ c.isBillboard = true then 1 else 0) := by
  obtain ⟨hnd, hb, hch⟩ := hwf
  have hid : id < w.nextId := get?_lt_nextId hb hget
  have hmem : (id, d) ∈ w.ents := mem_of_get? hget
  have hchb : ∀ ch ∈ d.children, ch < w.nextId := hch (id, d) hmem
  have hcong : d.children.countP
        (fun ch => hasBillboardMeshHandle (applyCommand icons w c) ch) =
      d.children.countP (fun ch => hasBillboardMeshHandle w ch) :=
    List.countP_congr (fun ch hchm => by
      rw [hasBBM_applyCommand icons w c (hchb ch hchm)])
  unfold recognizedProxyChildren
  rw [applyCommand_get?_old icons w c hid]
  by_cases hs : id = c.subject
  · rw [if_pos hs, hget]
    simp only [Option.map_some']
    have hproxy : (applyCommand icons w c).get? w.nextId =
        some (c.proxyData w.nextId) :=
      applyCommand_get?_proxy icons w c hb (hs ▸ hid)
    have hnew : hasBillboardMeshHandle (applyCommand icons w c) w.nextId =
        c.isBillboard := by
      unfold hasBillboardMeshHandle
      rw [hproxy]
      cases c <;> simp [Command.proxyData, Command.isBillboard,
        billboardProxyData, objectProxyData]
    show (d.children ++ [w.nextId]).countP _ = _
    rw [List.countP_append, hcong]
    have h1 : [w.nextId].countP
        (fun ch => hasBillboardMeshHandle (applyCommand icons w c) ch) =
        if c.isBillboard = true then 1 else 0 := by
      rw [List.countP_cons, List.countP_nil, hnew]
      simp
    rw [h1]
    have h2 : (c.subject = id ∧ c.isBillboard = true) ↔
        (c.isBillboard = true) := by
      constructor
      · exact fun h => h.2
      · exact fun h => ⟨hs.symm, h⟩
    by_cases hbb : c.isBillboard = true <;> simp [hbb, h2, ← hs]
  · rw [if_neg hs, hget]
    have h2 : ¬(c.subject = id ∧ c.isBillboard = true) :=
      fun h => hs h.1.symm
    simp only [h2, if_false, Option.map_some']
    simpa using hcong

theorem recognized_foldl (icons : EditorIconAssets) (cs : List Command) :
    ∀ (w : World) (id : Nat) (d : EntityData), w.wf → w.get? id = some d →
      recognizedProxyChildren (cs.foldl (applyCommand icons) w) id =
        recognizedProxyChildren w id +
          cs.countP (fun c => c.subject == id && c.isBillboard) := by
  induction cs with
  | nil => intro w id d _ _; simp
  | cons c cs ih =>
      intro w id d hwf hget
      rw [List.foldl_cons, List.countP_cons]
      have hwf' := applyCommand_wf icons w c hwf
      have hid : id < w.nextId := get?_lt_nextId hwf.2.1 hget
      have hsome : ∃ d', (applyCommand icons w c).get? id = some d' := by
        rw [applyCommand_get?_old icons w c hid]
        by_cases hs : id = c.subject
        · exact ⟨_, by rw [if_pos hs, hget]; rfl⟩
        · exact ⟨d, by rw [if_neg hs, hget]⟩
      rcases hsome with ⟨d', hget'⟩
      rw [ih _ _ _ hwf' hget',
        recognized_applyCommand icons w c hwf hget]
      have hif : (if (c.subject == id && c.isBillboard : Bool) = true
            then 1 else 0) =
          (if c.subject = id ∧ c.isBillboard = true then 1 else 0) := by
        by_cases ha : c.subject = id <;> by_cases hbb : c.isBillboard = true <;>
          simp [ha, hbb]
      rw [hif]
      omega

theorem missingProxy_eq_all (w : World) (d : EntityData) :
    missingProxy w d =
      d.children.all (fun ch => !(hasBillboardMeshHandle w ch)) := by
  unfold missingProxy
  cases d.children <;> simp

theorem missingProxy_iff_zero {w : World} {id : Nat} {d : EntityData}
    (hget : w.get? id = some d) :
    missingProxy w d = true ↔ recognizedProxyChildren w id = 0 := by
  rw [missingProxy_eq_all]
  unfold recognizedProxyChildren
  rw [hget]
  rw [List.all_eq_true, List.countP_eq_zero]
  constructor
  · intro h a ha
    have := h a ha
    simp at this
    simp [this]
  · intro h a ha
    have := h a ha
    simp at this
    simp [this]

theorem lightImage_some_of_filter (icons : EditorIconAssets)
    (d : EntityData) (h : lightQueryFilter d = true) :
    ∃ img, lightImage icons (lightAnyOf d) = some img := by
  unfold lightQueryFilter at h
  cases hd : d.directionalLight with
  | true =>
      exact ⟨icons.directional, by simp [lightAnyOf, lightImage, hd]⟩
  | false =>
      cases hsp : d.spotLight with
      | true =>
          exact ⟨icons.spot, by simp [lightAnyOf, lightImage, hd, hsp]⟩
      | false =>
          cases hpt : d.pointLight with
          | true =>
              exact ⟨icons.point,
                by simp [lightAnyOf, lightImage, hd, hsp, hpt]⟩
          | false => rw [hd, hsp, hpt] at h; simp at h

theorem foldl_new (icons : EditorIconAssets) (cs : List Command) :
    ∀ (w : World) (p : Nat) (d' : EntityData),
      w.wf →
      (∀ c ∈ cs, c.subject < w.nextId) →
      (∀ c ∈ cs, ∃ dc, w.get? c.subject = some dc) →
      w.get? p = none →
      (cs.foldl (applyCommand icons) w).get? p = some d' →
      ∃ c ∈ cs, newShape icons (cs.foldl (applyCommand icons) w) p d' c := by
  induction cs with
  | nil =>
      intro w p d' _ _ _ hnone hget
      rw [List.foldl_nil] at hget
      rw [hnone] at hget
      cases hget
  | cons c cs ih =>
      intro w p d' hwf hsub hexist hnone hget
      rw [List.foldl_cons] at hget ⊢
      have hwf₁ : (applyCommand icons w c).wf := applyCommand_wf icons w c hwf
      have hsubc : c.subject < w.nextId := hsub c (List.mem_cons_self _ _)
      have hsub₁ : ∀ c' ∈ cs, c'.subject < (applyCommand icons w c).nextId :=
        fun c' hc' =>
          lt_of_lt_of_le (hsub c' (List.mem_cons_of_mem _ hc'))
            (le_applyCommand_nextId icons w c)
      have hex₁ : ∀ c' ∈ cs,
          ∃ dc, (applyCommand icons w c).get? c'.subject = some dc := by
        intro c' hc'
        rcases hexist c' (List.mem_cons_of_mem _ hc') with ⟨dc, hdc⟩
        have hlt := hsub c' (List.mem_cons_of_mem _ hc')
        rw [applyCommand_get?_old icons w c hlt]
        by_cases hss : c'.subject = c.subject
        · rw [if_pos hss, hdc]
          exact ⟨_, rfl⟩
        · rw [if_neg hss, hdc]
          exact ⟨dc, rfl⟩
      by_cases hp : p < w.nextId
      · have hnone₁ : (applyCommand icons w c).get? p = none := by
          rw [applyCommand_get?_old icons w c hp]
          by_cases hs : p = c.subject
          · rw [if_pos hs, hnone]; rfl
          · rw [if_neg hs, hnone]
        rcases ih _ p d' hwf₁ hsub₁ hex₁ hnone₁ hget with ⟨c', hc', hshape⟩
        exact ⟨c', List.mem_cons_of_mem _ hc', hshape⟩
      · push_neg at hp
        rcases hexist c (List.mem_cons_self _ _) with ⟨dc, hdc⟩
        have hsget₁ : (applyCommand icons w c).get? c.subject =
            some { dc with children := dc.children ++ [w.nextId] } := by
          rw [applyCommand_get?_old icons w c hsubc, if_pos rfl, hdc]
          rfl
        have hslt₁ : c.subject < (applyCommand icons w c).nextId :=
          lt_of_lt_of_le hsubc (le_applyCommand_nextId icons w c)
        have hchild : hasChild
            (cs.foldl (applyCommand icons) (applyCommand icons w c))
            c.subject w.nextId := by
          rcases foldl_children_append icons cs _ _ _ hsget₁ hslt₁ with
            ⟨ext, hext⟩
          refine ⟨_, hext, ?_⟩
          show w.nextId ∈ (dc.children ++ [w.nextId]) ++ ext
          exact List.mem_append.mpr
            (Or.inl (List.mem_append.mpr
              (Or.inr (List.mem_singleton.mpr rfl))))
        have hfr : ∀ x, w.nextId ≤ x → x < (applyCommand icons w c).nextId →
            (cs.foldl (applyCommand icons) (applyCommand icons w c)).get? x =
              (applyCommand icons w c).get? x := by
          intro x hxl hx
          apply foldl_get?_frame icons cs _ hx
          intro c' hc' he
          have := hsub c' (List.mem_cons_of_mem _ hc')
          omega
        cases c with
        | billboard s mesh tex =>
            have hnx : (applyCommand icons w
                (Command.billboard s mesh tex)).nextId = w.nextId + 2 := by
              rw [applyCommand_nextId]; rfl
            by_cases h1 : p = w.nextId
            · subst h1
              have hproxy := applyCommand_get?_proxy icons w
                (Command.billboard s mesh tex) hwf.2.1 hsubc
              have hgp : d' = billboardProxyData mesh tex (w.nextId + 1) := by
                have := hget
                rw [hfr w.nextId (by omega) (by omega), hproxy] at this
                exact (Option.some_inj.mp this).symm
              have hcoll := applyCommand_get?_coll icons w s mesh tex
                hwf.2.1 hsubc
              refine ⟨Command.billboard s mesh tex,
                List.mem_cons_self _ _, Or.inl ⟨hgp, ?_, hchild⟩⟩
              rw [hfr (w.nextId + 1) (by omega) (by omega), hcoll]
            · by_cases h2 : p = w.nextId + 1
              · subst h2
                have hcoll := applyCommand_get?_coll icons w s mesh tex
                  hwf.2.1 hsubc
                have hgp : d' = collisionChildData icons.sphere s := by
                  have := hget
                  rw [hfr (w.nextId + 1) (by omega) (by omega), hcoll] at this
                  exact (Option.some_inj.mp this).symm
                have hproxy := applyCommand_get?_proxy icons w
                  (Command.billboard s mesh tex) hwf.2.1 hsubc
                refine ⟨Command.billboard s mesh tex,
                  List.mem_cons_self _ _,
                  Or.inr ⟨hgp, w.nextId, ?_, hchild⟩⟩
                rw [hfr w.nextId (by omega) (by omega), hproxy]
                rfl
              · have hge : (applyCommand icons w
                    (Command.billboard s mesh tex)).nextId ≤ p := by omega
                have hnone₁ := applyCommand_get?_none icons w
                  (Command.billboard s mesh tex) hwf.2.1 hge
                rcases ih _ p d' hwf₁ hsub₁ hex₁ hnone₁ hget with
                  ⟨c', hc', hshape⟩
                exact ⟨c', List.mem_cons_of_mem _ hc', hshape⟩
        | object s mesh material =>
            have hnx : (applyCommand icons w
                (Command.object s mesh material)).nextId = w.nextId + 1 := by
              rw [applyCommand_nextId]; rfl
            by_cases h1 : p = w.nextId
            · subst h1
              have hproxy := applyCommand_get?_proxy icons w
                (Command.object s mesh material) hwf.2.1 hsubc
              have hgp : d' = objectProxyData mesh material s := by
                have := hget
                rw [hfr w.nextId (by omega) (by omega), hproxy] at this
                exact (Option.some_inj.mp this).symm
              exact ⟨Command.object s mesh material,
                List.mem_cons_self _ _, ⟨hgp, hchild⟩⟩
            · have hge : (applyCommand icons w
                  (Command.object s mesh material)).nextId ≤ p := by omega
              have hnone₁ := applyCommand_get?_none icons w
                (Command.object s mesh material) hwf.2.1 hge
              rcases ih _ p d' hwf₁ hsub₁ hex₁ hnone₁ hget with
                ⟨c', hc', hshape⟩
              exact ⟨c', List.mem_cons_of_mem _ hc', hshape⟩

theorem reconcile_step (icons : EditorIconAssets) (w : World) (id : Nat)
    (e : EntityData)
    (hwf : w.wf) (hget : w.get? id = some e) (hex : atMostOneQuery e)
    (hcnt : recognizedProxyChildren w id ≤ 1) :
    (reconcileFrame icons w).wf ∧
    (∃ ch, (reconcileFrame icons w).get? id = some { e with children := ch }) ∧
    recognizedProxyChildren (reconcileFrame icons w) id ≤ 1 := by
  obtain ⟨hnd, hb, hch⟩ := hwf
  have hid : id < w.nextId := get?_lt_nextId hb hget
  have hmem : (id, e) ∈ w.ents := mem_of_get? hget
  set w₁ := visualize_meshless icons w with hw₁
  have hwf₁ : w₁.wf := foldl_wf icons (meshlessCommands icons w) w ⟨hnd, hb, hch⟩
  have hle₁ : w.nextId ≤ w₁.nextId := foldl_nextId_le icons (meshlessCommands icons w) w
  have hid₁ : id < w₁.nextId := lt_of_lt_of_le hid hle₁
  have hrec₁ : recognizedProxyChildren w₁ id =
      recognizedProxyChildren w id +
        (meshlessCommands icons w).countP
          (fun c => c.subject == id && c.isBillboard) :=
    recognized_foldl icons (meshlessCommands icons w) w id e ⟨hnd, hb, hch⟩ hget
  have hwf₂ : (reconcileFrame icons w).wf :=
    foldl_wf icons (customCommands icons w₁) w₁ hwf₁
  by_cases hz : recognizedProxyChildren w id = 0
  · -- no recognized proxy yet
    have hmiss : missingProxy w e = true := (missingProxy_iff_zero hget).mpr hz
    by_cases hl : lightQueryFilter e = true
    · -- handled by the lights loop of the standard pass
      have hcamf : camQueryFilter e = false := by
        cases hcf : camQueryFilter e
        · rfl
        · exact absurd ⟨hl, hcf⟩ hex.1
      have hcmn : e.customMeshless = none := by
        cases hcm : e.customMeshless with
        | none => rfl
        | some cm => exact absurd ⟨hl, by simp [hcm]⟩ hex.2.1
      rcases lightImage_some_of_filter icons e hl with ⟨img, himg⟩
      have hlc : lightCmd icons w (id, e) =
          some (Command.billboard id icons.square img) := by
        simp [lightCmd, hl, hmiss, himg]
      have hcc : camCmd icons w (id, e) = none := by
        simp [camCmd, hcamf]
      have hsubjL : ∀ p c, lightCmd icons w p = some c → c.subject = p.1 :=
        fun p c h => (lightCmd_some h).1
      have hsubjC : ∀ p c, camCmd icons w p = some c → c.subject = p.1 :=
        fun p c h => (camCmd_some h).1
      have hcnt₁ : (meshlessCommands icons w).countP
          (fun c => c.subject == id) = 1 := by
        unfold meshlessCommands
        rw [List.countP_append,
          countP_subject_filterMap_one _ _ id e _ hsubjL hnd hmem hlc,
          countP_subject_filterMap_zero _ _ id e hsubjC hnd hmem hcc]
      have hbbeq : (meshlessCommands icons w).countP
          (fun c => c.subject == id && c.isBillboard) =
          (meshlessCommands icons w).countP (fun c => c.subject == id) := by
        apply List.countP_congr
        intro c hc
        have hbbc : c.isBillboard = true := by
          rcases List.mem_append.mp hc with h | h <;>
            rcases List.mem_filterMap.mp h with ⟨p, hp, hf⟩
          · exact (lightCmd_some hf).2.2.2
          · exact (camCmd_some hf).2.2.2
        simp [hbbc]
      have hrec₁' : recognizedProxyChildren w₁ id = 1 := by
        rw [hrec₁, hbbeq, hcnt₁, hz]
      rcases foldl_get?_flags icons (meshlessCommands icons w) w id e hget hid
        with ⟨ch₁, hget₁⟩
      have hccm : customCmd icons w₁ (id, { e with children := ch₁ }) =
          none := by
        simp [customCmd, hcmn]
      have hns₂ := customCommands_no_subject icons w₁ hwf₁.1 hget₁ hccm
      have hcnt₂ : (customCommands icons w₁).countP
          (fun c => c.subject == id && c.isBillboard) = 0 := by
        rw [List.countP_eq_zero]
        intro c hc
        simp [hns₂ c hc]
      refine ⟨hwf₂, ?_, ?_⟩
      · rcases foldl_get?_flags icons (customCommands icons w₁) w₁ id _
          hget₁ hid₁ with ⟨ch₂, hget₂⟩
        exact ⟨ch₂, hget₂⟩
      · have := recognized_foldl icons (customCommands icons w₁) w₁ id _
          hwf₁ hget₁
        show recognizedProxyChildren
          ((customCommands icons w₁).foldl (applyCommand icons) w₁) id ≤ 1
        rw [this, hcnt₂, hrec₁']
    · -- lights loop does not match
      have hlf : lightQueryFilter e = false := by
        cases h : lightQueryFilter e
        · rfl
        · exact absurd h hl
      have hlc : lightCmd icons w (id, e) = none := by
        simp [lightCmd, hlf]
      by_cases hcam : camQueryFilter e = true
      · -- handled by the cameras loop of the standard pass
        have hcmn : e.customMeshless = none := by
          cases hcm : e.customMeshless with
          | none => rfl
          | some cm => exact absurd ⟨hcam, by simp [hcm]⟩ hex.2.2
        have hcc : camCmd icons w (id, e) =
            some (Command.billboard id icons.square icons.camera) := by
          simp [camCmd, hcam, hmiss]
        have hsubjL : ∀ p c, lightCmd icons w p = some c → c.subject = p.1 :=
          fun p c h => (lightCmd_some h).1
        have hsubjC : ∀ p c, camCmd icons w p = some c → c.subject = p.1 :=
          fun p c h => (camCmd_some h).1
        have hcnt₁ : (meshlessCommands icons w).countP
            (fun c => c.subject == id) = 1 := by
          unfold meshlessCommands
          rw [List.countP_append,
            countP_subject_filterMap_zero _ _ id e hsubjL hnd hmem hlc,
            countP_subject_filterMap_one _ _ id e _ hsubjC hnd hmem hcc]
        have hbbeq : (meshlessCommands icons w).countP
            (fun c => c.subject == id && c.isBillboard) =
            (meshlessCommands icons w).countP (fun c => c.subject == id) := by
          apply List.countP_congr
          intro c hc
          have hbbc : c.isBillboard = true := by
            rcases List.mem_append.mp hc with h | h <;>
              rcases List.mem_filterMap.mp h with ⟨p, hp, hf⟩
            · exact (lightCmd_some hf).2.2.2
            · exact (camCmd_some hf).2.2.2
          simp [hbbc]
        have hrec₁' : recognizedProxyChildren w₁ id = 1 := by
          rw [hrec₁, hbbeq, hcnt₁, hz]
        rcases foldl_get?_flags icons (meshlessCommands icons w) w id e hget
          hid with ⟨ch₁, hget₁⟩
        have hccm : customCmd icons w₁ (id, { e with children := ch₁ }) =
            none := by
          simp [customCmd, hcmn]
        have hns₂ := customCommands_no_subject icons w₁ hwf₁.1 hget₁ hccm
        have hcnt₂ : (customCommands icons w₁).countP
            (fun c => c.subject == id && c.isBillboard) = 0 := by
          rw [List.countP_eq_zero]
          intro c hc
          simp [hns₂ c hc]
        refine ⟨hwf₂, ?_, ?_⟩
        · rcases foldl_get?_flags icons (customCommands icons w₁) w₁ id _
            hget₁ hid₁ with ⟨ch₂, hget₂⟩
          exact ⟨ch₂, hget₂⟩
        · have := recognized_foldl icons (customCommands icons w₁) w₁ id _
            hwf₁ hget₁
          show recognizedProxyChildren
            ((customCommands icons w₁).foldl (applyCommand icons) w₁) id ≤ 1
          rw [this, hcnt₂, hrec₁']
      · -- neither standard query matches the subject
        have hcamf : camQueryFilter e = false := by
          cases h : camQueryFilter e
          · rfl
          · exact absurd h hcam
        have hcc : camCmd icons w (id, e) = none := by
          simp [camCmd, hcamf]
        have hns := meshlessCommands_no_subject icons w hnd hget hlc hcc
        have hcnt₁ : (meshlessCommands icons w).countP
            (fun c => c.subject == id && c.isBillboard) = 0 := by
          rw [List.countP_eq_zero]
          intro c hc
          simp [hns c hc]
        have hget₁ : w₁.get? id = some e :=
          (foldl_get?_frame icons (meshlessCommands icons w) w hid hns).trans
            hget
        have hrec₁' : recognizedProxyChildren w₁ id = 0 := by
          rw [hrec₁, hcnt₁, hz]
        have hbound : (customCommands icons w₁).countP
            (fun c => c.subject == id && c.isBillboard) ≤ 1 := by
          cases hcm : e.customMeshless with
          | none =>
              have hccm : customCmd icons w₁ (id, e) = none := by
                simp [customCmd, hcm]
              have hns₂ :=
                customCommands_no_subject icons w₁ hwf₁.1 hget₁ hccm
              have h0 : (customCommands icons w₁).countP
                  (fun c => c.subject == id && c.isBillboard) = 0 := by
                rw [List.countP_eq_zero]
                intro c hc
                simp [hns₂ c hc]
              omega
          | some cm =>
              have hmiss₁ : missingProxy w₁ e = true :=
                (missingProxy_iff_zero hget₁).mpr hrec₁'
              have hccm : customCmd icons w₁ (id, e) =
                  some (resolveMeshless icons id cm.visual) := by
                simp [customCmd, hcm, hmiss₁]
              have hmem₁ : (id, e) ∈ w₁.ents := mem_of_get? hget₁
              have hsubj : ∀ p c, customCmd icons w₁ p = some c →
                  c.subject = p.1 :=
                fun p c h => (customCmd_some h).1
              have hcnt₂ : (customCommands icons w₁).countP
                  (fun c => c.subject == id) = 1 :=
                countP_subject_filterMap_one _ _ id e _ hsubj hwf₁.1 hmem₁
                  hccm
              have hmono := @List.countP_mono_left Command
                (fun c => c.subject == id && c.isBillboard)
                (fun c => c.subject == id)
                (customCommands icons w₁)
                (fun c _ h => by rw [Bool.and_eq_true] at h; exact h.1)
              omega
        refine ⟨hwf₂, ?_, ?_⟩
        · rcases foldl_get?_flags icons (customCommands icons w₁) w₁ id _
            hget₁ hid₁ with ⟨ch₂, hget₂⟩
          exact ⟨ch₂, hget₂⟩
        · have hre := recognized_foldl icons (customCommands icons w₁) w₁ id _
            hwf₁ hget₁
          show recognizedProxyChildren
            ((customCommands icons w₁).foldl (applyCommand icons) w₁) id ≤ 1
          rw [hre, hrec₁']
          omega
  · -- the subject already carries a recognized proxy child
    have hmiss : missingProxy w e = false := by
      cases hmp : missingProxy w e
      · rfl
      · exact absurd ((missingProxy_iff_zero hget).mp hmp) hz
    have hlc : lightCmd icons w (id, e) = none := by
      simp [lightCmd, hmiss]
    have hcc : camCmd icons w (id, e) = none := by
      simp [camCmd, hmiss]
    have hns := meshlessCommands_no_subject icons w hnd hget hlc hcc
    have hcnt₁ : (meshlessCommands icons w).countP
        (fun c => c.subject == id && c.isBillboard) = 0 := by
      rw [List.countP_eq_zero]
      intro c hc
      simp [hns c hc]
    have hget₁ : w₁.get? id = some e :=
      (foldl_get?_frame icons (meshlessCommands icons w) w hid hns).trans
        hget
    have hrec₁' : recognizedProxyChildren w₁ id =
        recognizedProxyChildren w id := by
      rw [hrec₁, hcnt₁]
      omega
    have hmiss₁ : missingProxy w₁ e = false := by
      cases hmp : missingProxy w₁ e
      · rfl
      · have h0 := (missingProxy_iff_zero hget₁).mp hmp
        rw [hrec₁'] at h0
        exact absurd h0 hz
    have hccm : customCmd icons w₁ (id, e) = none := by
      cases hcm : e.customMeshless with
      | none => simp [customCmd, hcm]
      | some cm => simp [customCmd, hcm, hmiss₁]
    have hns₂ := customCommands_no_subject icons w₁ hwf₁.1 hget₁ hccm
    have hcnt₂ : (customCommands icons w₁).countP
        (fun c => c.subject == id && c.isBillboard) = 0 := by
      rw [List.countP_eq_zero]
      intro c hc
      simp [hns₂ c hc]
    refine ⟨hwf₂, ?_, ?_⟩
    · rcases foldl_get?_flags icons (customCommands icons w₁) w₁ id _
        hget₁ hid₁ with ⟨ch₂, hget₂⟩
      exact ⟨ch₂, hget₂⟩
    · have := recognized_foldl icons (customCommands icons w₁) w₁ id _
        hwf₁ hget₁
      show recognizedProxyChildren
        ((customCommands icons w₁).foldl (applyCommand icons) w₁) id ≤ 1
      rw [this, hcnt₂, hrec₁']
      omega

theorem reconcile_iterate (icons : EditorIconAssets) (n : Nat) :
    ∀ (w : World) (id : Nat) (e : EntityData),
      w.wf → w.get? id = some e → atMostOneQuery e →
      recognizedProxyChildren w id ≤ 1 →
      recognizedProxyChildren ((reconcileFrame icons)^[n] w) id ≤ 1 := by
  induction n with
  | zero => intro w id e _ _ _ h; exact h
  | succ n ih =>
      intro w id e hwf hget hex hcnt
      rw [Function.iterate_succ_apply]
      rcases reconcile_step icons w id e hwf hget hex hcnt with
        ⟨hwf', ⟨ch, hget'⟩, hcnt'⟩
      exact ih _ id { e with children := ch } hwf' hget' hex hcnt'

theorem frontier_subset_descendantsAux (w : World) (fuel : Nat)
    (frontier : List Nat) :
    ∀ x ∈ frontier, x ∈ descendantsAux w fuel frontier := by
  cases fuel with
  | zero => intro x hx; exact hx
  | succ f =>
      intro x hx
      unfold descendantsAux
      exact List.mem_append.mpr (Or.inl hx)

theorem mem_childrenOfAll (w : World) {l : List Nat} {x y : Nat}
    (hx : x ∈ l) (hy : y ∈ childrenOf w x) : y ∈ childrenOfAll w l := by
  induction l with
  | nil => cases hx
  | cons a l ih =>
      unfold childrenOfAll
      rcases List.mem_cons.mp hx with h | h
      · subst h; exact List.mem_append.mpr (Or.inl hy)
      · exact List.mem_append.mpr (Or.inr (ih h))

theorem marker_mem_despawnSet (w : World) {p : Nat × EntityData}
    (hp : p ∈ w.ents) (hm : proxyMarker p.2 = true) :
    p.1 ∈ despawnSet w := by
  unfold despawnSet
  apply frontier_subset_descendantsAux
  exact List.mem_map_of_mem Prod.fst (List.mem_filter.mpr ⟨hp, hm⟩)

theorem child_mem_despawnSet (w : World)
    (hnd : (w.ents.map Prod.fst).Nodup) {p : Nat × EntityData}
    (hp : p ∈ w.ents) (hm : proxyMarker p.2 = true) {c : Nat}
    (hc : c ∈ p.2.children) : c ∈ despawnSet w := by
  unfold despawnSet
  have hlen : w.ents.length ≠ 0 := by
    intro h
    rw [List.length_eq_zero] at h
    rw [h] at hp
    cases hp
  cases hl : w.ents.length with
  | zero => exact absurd hl hlen
  | succ f =>
      unfold descendantsAux
      apply List.mem_append.mpr
      right
      apply frontier_subset_descendantsAux
      apply mem_childrenOfAll w
        (List.mem_map_of_mem Prod.fst (List.mem_filter.mpr ⟨hp, hm⟩))
      unfold childrenOf
      rw [World.get?_of_mem hnd hp]
      exact hc

theorem clean_get?_none (w : World) {x : Nat} (hx : x ∈ despawnSet w) :
    (clean_meshless w).get? x = none := by
  unfold clean_meshless World.get?
  rw [Option.map_eq_none']
  rw [List.find?_eq_none]
  intro q hq
  rcases List.mem_map.mp hq with ⟨r, hr, rfl⟩
  have hrf := List.mem_filter.mp hr
  have h2 := hrf.2
  rw [Bool.not_eq_true'] at h2
  intro hbeq
  have hrx : r.1 = x := by simpa using hbeq
  rw [hrx] at h2
  have h3 : (despawnSet w).contains x = true := List.elem_iff.mpr hx
  rw [h3] at h2
  cases h2

theorem clean_no_marker (w : World) :
    ∀ p ∈ (clean_meshless w).ents, proxyMarker p.2 = false := by
  intro p hp
  unfold clean_meshless at hp
  rcases List.mem_map.mp hp with ⟨r, hr, rfl⟩
  have hrf := List.mem_filter.mp hr
  show proxyMarker { r.2 with
    children := r.2.children.filter _ } = false
  have hsame : proxyMarker { r.2 with
      children := r.2.children.filter
        (fun c => !((despawnSet w).contains c)) } = proxyMarker r.2 := rfl
  rw [hsame]
  cases hm : proxyMarker r.2
  · rfl
  · exfalso
    have hmem := marker_mem_despawnSet w hrf.1 hm
    have h3 : (despawnSet w).contains r.1 = true := List.elem_iff.mpr hmem
    have h2 := hrf.2
    rw [h3] at h2
    cases h2

/-- Claim C1 (code-bug evidence): on a scene with a single `Object`-visual
meshless entity, the first run of `visualize_custom_meshless` spawns one
proxy child, whose proxy carries no `BillboardMeshHandle`, and therefore the
second run of the pass spawns a second proxy child — the reconciliation is
not idempotent for object-style proxies. -/
theorem C1_object_proxy_respawn :
    ((visualize_custom_meshless sampleIcons wObj).get? 0).map
        EntityData.children = some [1] ∧
    hasBillboardMeshHandle (visualize_custom_meshless sampleIcons wObj) 1 =
      false ∧
    ((visualize_custom_meshless sampleIcons
        (visualize_custom_meshless sampleIcons wObj)).get? 0).map
        EntityData.children = some [1, 2] := by
  decide

/-- Claim C2: a subject of exactly one of the five kinds (directional light,
spot light, point light, camera, meshless-tagged) that the missing-proxy test
reports as proxy-less gains, in one run of the pass handling that kind,
exactly one new child: the proxy carrying the visual selected for the kind
(the kind's icon image on a billboard for lights and cameras, the resolved
`MeshlessModel` visual for a meshless-tagged entity). -/
theorem C2_coverage (icons : EditorIconAssets) (w : World) (id : Nat)
    (d : EntityData) (k : SubjectKind)
    (hwf : w.wf) (hget : w.get? id = some d)
    (hk : kindMatches k d) (hmiss : missingProxy w d = true) :
    ∃ p, w.nextId ≤ p ∧
      (passFor k icons w).get? id =
        some { d with children := d.children ++ [p] } ∧
      spawnedData icons (passFor k icons w) p (expectedCommand icons id k) :=
  kind_spawn icons w id d k hwf hget hk hmiss

/-- Claim C2 witness: the coverage theorem applied to a concrete scene
holding one directional light. -/
theorem C2_coverage_witness :
    wDir.wf ∧ wDir.get? 0 = some dDir ∧
    kindMatches SubjectKind.directional dDir ∧
    missingProxy wDir dDir = true ∧
    ∃ p, wDir.nextId ≤ p ∧
      (passFor SubjectKind.directional sampleIcons wDir).get? 0 =
        some { dDir with children := dDir.children ++ [p] } ∧
      spawnedData sampleIcons
        (passFor SubjectKind.directional sampleIcons wDir) p
        (expectedCommand sampleIcons 0 SubjectKind.directional) :=
  ⟨by decide, by decide, by decide, by decide,
    C2_coverage sampleIcons wDir 0 dDir SubjectKind.directional (by decide)
      (by decide) (by decide) (by decide)⟩

/-- Claim C3 counterexample: the proxy spawned for an `Object`-visual
meshless entity carries neither billboard marker, so `clean_meshless`
leaves it in place — the cleanup pass does not remove all spawned proxy
entities. -/
theorem C3_counterexample :
    (visualize_custom_meshless sampleIcons wObj).get? 1 =
      some (objectProxyData sampleIcons.sphere
        (MaterialHandle.added { unlit := true }) 0) ∧
    (clean_meshless (visualize_custom_meshless sampleIcons wObj)).get? 1 =
      some (objectProxyData sampleIcons.sphere
        (MaterialHandle.added { unlit := true }) 0) := by
  decide

/-- Claim C3 (amended): `clean_meshless` despawns every entity carrying a
billboard texture or billboard mesh marker together with its children (in
particular the clickable collision child), and afterwards no remaining
entity carries such a marker; proxies carrying neither marker (object-style
proxies) are not removed. -/
theorem C3_cleanup_amended (w : World)
    (hnd : (w.ents.map Prod.fst).Nodup) :
    (∀ p ∈ (clean_meshless w).ents, proxyMarker p.2 = false) ∧
    (∀ p ∈ w.ents, proxyMarker p.2 = true →
      (clean_meshless w).get? p.1 = none ∧
      ∀ c ∈ p.2.children, (clean_meshless w).get? c = none) := by
  refine ⟨clean_no_marker w, ?_⟩
  intro p hp hm
  exact ⟨clean_get?_none w (marker_mem_despawnSet w hp hm),
    fun c hc => clean_get?_none w (child_mem_despawnSet w hnd hp hm hc)⟩

/-- Claim C3 amended witness: after proxying one directional light, cleanup
removes the billboard proxy (entity 1) and its collision child (entity 2). -/
theorem C3_cleanup_amended_witness :
    ((visualize_meshless sampleIcons wDir).ents.map Prod.fst).Nodup ∧
    (clean_meshless (visualize_meshless sampleIcons wDir)).get? 1 = none ∧
    (clean_meshless (visualize_meshless sampleIcons wDir)).get? 2 = none := by
  refine ⟨by decide, ?_, ?_⟩
  · exact ((C3_cleanup_amended (visualize_meshless sampleIcons wDir)
      (by decide)).2
      (1, billboardProxyData sampleIcons.square sampleIcons.directional 2)
      (by decide) (by decide)).1
  · exact ((C3_cleanup_amended (visualize_meshless sampleIcons wDir)
      (by decide)).2
      (1, billboardProxyData sampleIcons.square sampleIcons.directional 2)
      (by decide) (by decide)).2 2 (by decide)

/-- Claim C4 counterexample: an entity that is both a directional light and
a non-editor camera receives two recognized billboard proxy children in a
single `visualize_meshless` run — two proxy subtrees are layered on one
subject. -/
theorem C4_counterexample :
    ((visualize_meshless sampleIcons wCamLight).get? 0).map
        EntityData.children = some [1, 3] ∧
    hasBillboardMeshHandle (visualize_meshless sampleIcons wCamLight) 1 =
      true ∧
    hasBillboardMeshHandle (visualize_meshless sampleIcons wCamLight) 3 =
      true ∧
    recognizedProxyChildren (visualize_meshless sampleIcons wCamLight) 0 =
      2 := by
  decide

/-- Claim C4 (amended): for a subject entity matched by at most one of the
three reconciliation queries (lights, cameras, custom meshless), any number
of reconciliation frames (the standard pass followed by the custom pass)
leaves at most one direct child recognized as a proxy by the reconciliation
test.  As originally stated the claim fails: an entity matching several
queries receives one proxy per matching query in a single pass. -/
theorem C4_invariant_amended (icons : EditorIconAssets) (w : World)
    (id : Nat) (e : EntityData) (n : Nat)
    (hwf : w.wf) (hget : w.get? id = some e) (hex : atMostOneQuery e)
    (hcnt : recognizedProxyChildren w id ≤ 1) :
    recognizedProxyChildren ((reconcileFrame icons)^[n] w) id ≤ 1 :=
  reconcile_iterate icons n w id e hwf hget hex hcnt

/-- Claim C4 amended witness: two reconciliation frames on a single
directional light leave at most one recognized proxy child. -/
theorem C4_invariant_amended_witness :
    wDir.wf ∧ wDir.get? 0 = some dDir ∧ atMostOneQuery dDir ∧
    recognizedProxyChildren wDir 0 ≤ 1 ∧
    recognizedProxyChildren ((reconcileFrame sampleIcons)^[2] wDir) 0 ≤ 1 :=
  ⟨by decide, by decide, by decide, by decide,
    C4_invariant_amended sampleIcons wDir 0 dDir 2 (by decide) (by decide)
      (by decide) (by decide)⟩

/-- Claim C5: default substitution in `visualize_custom_meshless`.  A
`Billboard` visual with both fields unset yields a proxy using the freshly
added 2×2 quad mesh and the "icons/unknown.png" image; a `Billboard` with
only the texture set uses the default quad with the supplied texture; an
`Object` visual with both fields unset uses the icon sphere mesh and a
freshly added unlit white standard material. -/
theorem C5_default_substitution (icons : EditorIconAssets) (w : World)
    (id : Nat) (d : EntityData)
    (hwf : w.wf) (hget : w.get? id = some d)
    (hmiss : missingProxy w d = true) :
    (d.customMeshless = some { visual := MeshlessModel.billboard none none } →
      ∃ p, (visualize_custom_meshless icons w).get? id =
          some { d with children := d.children ++ [p] } ∧
        (visualize_custom_meshless icons w).get? p =
          some (billboardProxyData (MeshHandle.addedQuad 2 2)
            (ImageHandle.load "icons/unknown.png") (p + 1))) ∧
    (∀ t, d.customMeshless =
        some { visual := MeshlessModel.billboard none (some t) } →
      ∃ p, (visualize_custom_meshless icons w).get? id =
          some { d with children := d.children ++ [p] } ∧
        (visualize_custom_meshless icons w).get? p =
          some (billboardProxyData (MeshHandle.addedQuad 2 2) t (p + 1))) ∧
    (d.customMeshless = some { visual := MeshlessModel.object none none } →
      ∃ p, (visualize_custom_meshless icons w).get? id =
          some { d with children := d.children ++ [p] } ∧
        (visualize_custom_meshless icons w).get? p =
          some (objectProxyData icons.sphere
            (MaterialHandle.added
              { unlit := true, baseColor := (1, 1, 1, 1) }) id)) := by
  refine ⟨?_, ?_, ?_⟩
  · intro hcm
    rcases custom_spawn icons w id d _ hwf hget hcm hmiss with ⟨p, _, h1, h2⟩
    exact ⟨p, h1, h2.1⟩
  · intro t hcm
    rcases custom_spawn icons w id d _ hwf hget hcm hmiss with ⟨p, _, h1, h2⟩
    exact ⟨p, h1, h2.1⟩
  · intro hcm
    rcases custom_spawn icons w id d _ hwf hget hcm hmiss with ⟨p, _, h1, h2⟩
    exact ⟨p, h1, h2⟩

/-- Claim C5 witness: the default-substitution theorem applied to a concrete
scene holding one default-`Billboard` meshless entity. -/
theorem C5_default_substitution_witness :
    wBill.wf ∧ wBill.get? 0 = some dBill ∧
    missingProxy wBill dBill = true ∧
    dBill.customMeshless =
      some { visual := MeshlessModel.billboard none none } ∧
    ∃ p, (visualize_custom_meshless sampleIcons wBill).get? 0 =
        some { dBill with children := dBill.children ++ [p] } ∧
      (visualize_custom_meshless sampleIcons wBill).get? p =
        some (billboardProxyData (MeshHandle.addedQuad 2 2)
          (ImageHandle.load "icons/unknown.png") (p + 1)) :=
  ⟨by decide, by decide, by decide, by decide,
    (C5_default_substitution sampleIcons wBill 0 dBill (by decide)
      (by decide) (by decide)).1 (by decide)⟩

/-- Claim C6 counterexample: the proxy spawned for an `Object`-visual
meshless entity carries the `SelectParent` back-reference directly and has
no children at all — in particular no invisible collision-sphere child. -/
theorem C6_counterexample :
    (visualize_custom_meshless sampleIcons wObj).get? 1 =
      some (objectProxyData sampleIcons.sphere
        (MaterialHandle.added { unlit := true }) 0) ∧
    (objectProxyData sampleIcons.sphere
      (MaterialHandle.added { unlit := true }) 0).children = [] ∧
    (objectProxyData sampleIcons.sphere
      (MaterialHandle.added { unlit := true }) 0).selectParent = some 0 := by
  decide

/-- Claim C6 (amended): every entity freshly spawned by either
reconciliation pass is tied to one missing-proxy subject `s` that matched a
candidate query, and the `SelectParent` back-reference always names that
same subject the proxy subtree is parented under: a billboard proxy is a
child of `s` and its collision child (at the next id) carries
`SelectParent s`; a collision child carries `SelectParent s` while its own
billboard proxy is a child of `s`; an object-style proxy is a child of `s`
and carries `SelectParent s` directly on itself (with no collision child).
The back-reference is never to an unrelated entity. -/
theorem C6_backref_amended (pid : PassId) (icons : EditorIconAssets)
    (w : World) (p : Nat) (d' : EntityData)
    (hwf : w.wf) (hnone : w.get? p = none)
    (hget : (runPass pid icons w).get? p = some d') :
    ∃ s ds, w.get? s = some ds ∧ missingProxy w ds = true ∧
      (lightQueryFilter ds = true ∨ camQueryFilter ds = true ∨
        ds.customMeshless.isSome = true) ∧
      ((∃ mesh tex, d' = billboardProxyData mesh tex (p + 1) ∧
          (runPass pid icons w).get? (p + 1) =
            some (collisionChildData icons.sphere s) ∧
          hasChild (runPass pid icons w) s p) ∨
        (∃ proxyId mesh tex, d' = collisionChildData icons.sphere s ∧
          (runPass pid icons w).get? proxyId =
            some (billboardProxyData mesh tex p) ∧
          hasChild (runPass pid icons w) s proxyId) ∨
        (∃ mesh material, d' = objectProxyData mesh material s ∧
          hasChild (runPass pid icons w) s p)) := by
  cases pid with
  | standard =>
      have hsub := meshlessCommands_subject_lt icons w hwf.2.1
      have hexist : ∀ c ∈ meshlessCommands icons w,
          ∃ dc, w.get? c.subject = some dc := by
        intro c hc
        rcases List.mem_append.mp hc with h | h <;>
          rcases List.mem_filterMap.mp h with ⟨q, hq, hf⟩
        · refine ⟨q.2, ?_⟩
          rw [(lightCmd_some hf).1]
          exact World.get?_of_mem hwf.1 hq
        · refine ⟨q.2, ?_⟩
          rw [(camCmd_some hf).1]
          exact World.get?_of_mem hwf.1 hq
      rcases foldl_new icons (meshlessCommands icons w) w p d' hwf hsub
        hexist hnone hget with ⟨c, hc, hshape⟩
      rcases List.mem_append.mp hc with h | h <;>
        rcases List.mem_filterMap.mp h with ⟨q, hq, hf⟩
      · obtain ⟨hsubj, hfil, hmissq, hbb⟩ := lightCmd_some hf
        have hgq : w.get? c.subject = some q.2 := by
          rw [hsubj]; exact World.get?_of_mem hwf.1 hq
        cases c with
        | object s mesh material => simp [Command.isBillboard] at hbb
        | billboard s mesh tex =>
            refine ⟨s, q.2, hgq, hmissq, Or.inl hfil, ?_⟩
            rcases hshape with ⟨h1, h2, h3⟩ | ⟨h1, proxyId, h2, h3⟩
            · exact Or.inl ⟨mesh, tex, h1, h2, h3⟩
            · exact Or.inr (Or.inl ⟨proxyId, mesh, tex, h1, h2, h3⟩)
      · obtain ⟨hsubj, hfil, hmissq, hbb⟩ := camCmd_some hf
        have hgq : w.get? c.subject = some q.2 := by
          rw [hsubj]; exact World.get?_of_mem hwf.1 hq
        cases c with
        | object s mesh material => simp [Command.isBillboard] at hbb
        | billboard s mesh tex =>
            refine ⟨s, q.2, hgq, hmissq, Or.inr (Or.inl hfil), ?_⟩
            rcases hshape with ⟨h1, h2, h3⟩ | ⟨h1, proxyId, h2, h3⟩
            · exact Or.inl ⟨mesh, tex, h1, h2, h3⟩
            · exact Or.inr (Or.inl ⟨proxyId, mesh, tex, h1, h2, h3⟩)
  | custom =>
      have hsub := customCommands_subject_lt icons w hwf.2.1
      have hexist : ∀ c ∈ customCommands icons w,
          ∃ dc, w.get? c.subject = some dc := by
        intro c hc
        rcases List.mem_filterMap.mp hc with ⟨q, hq, hf⟩
        refine ⟨q.2, ?_⟩
        rw [(customCmd_some hf).1]
        exact World.get?_of_mem hwf.1 hq
      rcases foldl_new icons (customCommands icons w) w p d' hwf hsub
        hexist hnone hget with ⟨c, hc, hshape⟩
      rcases List.mem_filterMap.mp hc with ⟨q, hq, hf⟩
      obtain ⟨hsubj, hmissq, cm, hcm, hceq⟩ := customCmd_some hf
      have hgq : w.get? c.subject = some q.2 := by
        rw [hsubj]; exact World.get?_of_mem hwf.1 hq
      have hfil : q.2.customMeshless.isSome = true := by rw [hcm]; rfl
      cases c with
      | billboard s mesh tex =>
          refine ⟨s, q.2, hgq, hmissq, Or.inr (Or.inr hfil), ?_⟩
          rcases hshape with ⟨h1, h2, h3⟩ | ⟨h1, proxyId, h2, h3⟩
          · exact Or.inl ⟨mesh, tex, h1, h2, h3⟩
          · exact Or.inr (Or.inl ⟨proxyId, mesh, tex, h1, h2, h3⟩)
      | object s mesh material =>
          exact ⟨s, q.2, hgq, hmissq, Or.inr (Or.inr hfil),
            Or.inr (Or.inr ⟨mesh, material, hshape.1, hshape.2⟩)⟩

/-- Claim C6 amended witness: the amended back-reference theorem applied to
the freshly spawned object-style proxy of a concrete scene. -/
theorem C6_backref_amended_witness :
    wObj.wf ∧ wObj.get? 1 = none ∧
    (runPass PassId.custom sampleIcons wObj).get? 1 =
      some (objectProxyData sampleIcons.sphere
        (MaterialHandle.added { unlit := true }) 0) ∧
    ∃ s ds, wObj.get? s = some ds ∧ missingProxy wObj ds = true ∧
      (lightQueryFilter ds = true ∨ camQueryFilter ds = true ∨
        ds.customMeshless.isSome = true) ∧
      ((∃ mesh tex, objectProxyData sampleIcons.sphere
            (MaterialHandle.added { unlit := true }) 0 =
            billboardProxyData mesh tex (1 + 1) ∧
          (runPass PassId.custom sampleIcons wObj).get? (1 + 1) =
            some (collisionChildData sampleIcons.sphere s) ∧
          hasChild (runPass PassId.custom sampleIcons wObj) s 1) ∨
        (∃ proxyId mesh tex, objectProxyData sampleIcons.sphere
            (MaterialHandle.added { unlit := true }) 0 =
            collisionChildData sampleIcons.sphere s ∧
          (runPass PassId.custom sampleIcons wObj).get? proxyId =
            some (billboardProxyData mesh tex 1) ∧
          hasChild (runPass PassId.custom sampleIcons wObj) s proxyId) ∨
        (∃ mesh material, objectProxyData sampleIcons.sphere
            (MaterialHandle.added { unlit := true }) 0 =
            objectProxyData mesh material s ∧
          hasChild (runPass PassId.custom sampleIcons wObj) s 1)) :=
  ⟨by decide, by decide, by decide,
    C6_backref_amended PassId.custom sampleIcons wObj 1
      (objectProxyData sampleIcons.sphere
        (MaterialHandle.added { unlit := true }) 0)
      (by decide) (by decide) (by decide)⟩

/-- Claim C7: the `Sphere{radius}` branch of `EditorIconAssetType::build`
always returns a successfully built mesh handle and never surfaces an
error: when the host's icosphere construction succeeds the requested radius
is used, and when it fails the branch falls back to constructing a sphere of
radius 0.75 (assumed to be a known-good radius). -/
theorem C7_sphere_fallback (tryIcosphere : ℚ → Option ℚ)
    (hshape : ∀ r, tryIcosphere r = some r ∨ tryIcosphere r = none)
    (hgood : tryIcosphere (3 / 4) = some (3 / 4)) (radius : ℚ) :
    ∃ m, EditorIconAssetType.build tryIcosphere
        (EditorIconAssetType.sphere radius) =
      some (Except.ok (DynAssetHandle.sphereMesh m)) ∧
      (tryIcosphere radius = some radius → m = radius) ∧
      (tryIcosphere radius = none → m = 3 / 4) := by
  rcases hshape radius with h | h
  · exact ⟨radius, by simp [EditorIconAssetType.build, h], fun _ => rfl,
      fun hn => by rw [h] at hn; cases hn⟩
  · refine ⟨3 / 4, ?_, ?_, fun _ => rfl⟩
    · simp [EditorIconAssetType.build, h, hgood]
    · intro hs; rw [h] at hs; cases hs

/-- Claim C7 witness: the fallback theorem applied to a construction that
fails on all non-positive radii, at the degenerate radius 0. -/
theorem C7_sphere_fallback_witness :
    (∀ r : ℚ, (if r ≤ 0 then (none : Option ℚ) else some r) = some r ∨
      (if r ≤ 0 then (none : Option ℚ) else some r) = none) ∧
    (if (3 / 4 : ℚ) ≤ 0 then (none : Option ℚ) else some (3 / 4)) =
      some (3 / 4) ∧
    ∃ m, EditorIconAssetType.build
        (fun r => if r ≤ 0 then none else some r)
        (EditorIconAssetType.sphere 0) =
      some (Except.ok (DynAssetHandle.sphereMesh m)) ∧
      ((if (0 : ℚ) ≤ 0 then (none : Option ℚ) else some 0) = some 0 →
        m = 0) ∧
      ((if (0 : ℚ) ≤ 0 then (none : Option ℚ) else some 0) = none →
        m = 3 / 4) :=
  ⟨fun r => by by_cases h : r ≤ 0 <;> simp [h],
    by rw [if_neg (by norm_num)],
    C7_sphere_fallback (fun r => if r ≤ 0 then none else some r)
      (fun r => by by_cases h : r ≤ 0 <;> simp [h])
      (by show (if (3 / 4 : ℚ) ≤ 0 then (none : Option ℚ)
            else some (3 / 4)) = some (3 / 4)
          rw [if_neg (by norm_num)]) 0⟩

/-- Claim C8: the missing-proxy test holds exactly when no child carries a
`BillboardMeshHandle`, not only when there are no children, so a subject
with only unrelated (non-proxy) children is still considered proxy-less and
one run of the pass handling its kind appends a proxy child. -/
theorem C8_unrelated_children (icons : EditorIconAssets) (w : World)
    (id : Nat) (d : EntityData) (k : SubjectKind)
    (hwf : w.wf) (hget : w.get? id = some d) (hk : kindMatches k d)
    (hne : d.children ≠ [])
    (hun : ∀ c ∈ d.children, hasBillboardMeshHandle w c = false) :
    missingProxy w d = true ∧
    ∃ p, w.nextId ≤ p ∧
      (passFor k icons w).get? id =
        some { d with children := d.children ++ [p] } := by
  have hmiss : missingProxy w d = true := by
    rw [missingProxy_eq_all, List.all_eq_true]
    intro c hc
    simp [hun c hc]
  refine ⟨hmiss, ?_⟩
  rcases kind_spawn icons w id d k hwf hget hk hmiss with ⟨p, h1, h2, _⟩
  exact ⟨p, h1, h2⟩

/-- Claim C8 witness: a directional light with an unrelated child still
receives a proxy. -/
theorem C8_unrelated_children_witness :
    wLightKid.wf ∧ wLightKid.get? 0 = some dLightKid ∧
    kindMatches SubjectKind.directional dLightKid ∧
    dLightKid.children ≠ [] ∧
    (∀ c ∈ dLightKid.children,
      hasBillboardMeshHandle wLightKid c = false) ∧
    missingProxy wLightKid dLightKid = true ∧
    ∃ p, wLightKid.nextId ≤ p ∧
      (passFor SubjectKind.directional sampleIcons wLightKid).get? 0 =
        some { dLightKid with children := dLightKid.children ++ [p] } := by
  refine ⟨by decide, by decide, by decide, by decide, by decide, ?_, ?_⟩
  · exact (C8_unrelated_children sampleIcons wLightKid 0 dLightKid
      SubjectKind.directional (by decide) (by decide) (by decide) (by decide)
      (by decide)).1
  · exact (C8_unrelated_children sampleIcons wLightKid 0 dLightKid
      SubjectKind.directional (by decide) (by decide) (by decide) (by decide)
      (by decide)).2

/-- Claim C9: every entity matched by the lights query carries at least one
of the three recognized light kinds, so the icon selection always yields an
image; the fail-fast arm of the light-kind match is reached only on the
all-`none` triple, which the `AnyOf` query precondition excludes. -/
theorem C9_light_kind_total (icons : EditorIconAssets) (d : EntityData)
    (h : lightQueryFilter d = true) :
    (lightImage icons (lightAnyOf d)).isSome = true ∧
    ∀ t : Option Unit × Option Unit × Option Unit,
      lightImage icons t = none → t = (none, none, none) := by
  constructor
  · rcases lightImage_some_of_filter icons d h with ⟨img, himg⟩
    rw [himg]; rfl
  · intro t ht
    rcases t with ⟨a, b, c⟩
    cases a <;> cases b <;> cases c <;> simp [lightImage] at ht ⊢

/-- Claim C9 witness: the light-kind totality theorem at a concrete
directional light. -/
theorem C9_light_kind_total_witness :
    lightQueryFilter dDir = true ∧
    (lightImage sampleIcons (lightAnyOf dDir)).isSome = true :=
  ⟨by decide, (C9_light_kind_total sampleIcons dDir (by decide)).1⟩

/-- Claim C10: `visualize_meshless` changes the children only of entities
matching one of its two queries — a light or a camera carrying
`PrefabMarker`, `Transform` and `Visibility`, the cameras query excluding
the editor-camera marker — and the editor's own camera (carrying the
editor-camera marker and no light component) is left entirely untouched. -/
theorem C10_query_filters (icons : EditorIconAssets) (w : World)
    (hwf : w.wf) :
    (∀ id d d', w.get? id = some d →
      (visualize_meshless icons w).get? id = some d' →
      d'.children ≠ d.children →
      d.prefabMarker = true ∧ d.transform = true ∧
        d.visibility.isSome = true ∧
        ((d.directionalLight || d.spotLight || d.pointLight) = true ∨
          (d.camera = true ∧ d.editorCameraMarker = false))) ∧
    (∀ id d, w.get? id = some d → d.camera = true →
      d.editorCameraMarker = true → d.directionalLight = false →
      d.spotLight = false → d.pointLight = false →
      (visualize_meshless icons w).get? id = some d) := by
  obtain ⟨hnd, hb, hch⟩ := hwf
  constructor
  · intro id d d' hget hget' hne
    by_cases hl : lightQueryFilter d = true
    · unfold lightQueryFilter at hl
      simp only [Bool.and_eq_true] at hl
      exact ⟨hl.1.1.2, hl.1.2, hl.2, Or.inl hl.1.1.1⟩
    · by_cases hc : camQueryFilter d = true
      · unfold camQueryFilter at hc
        simp only [Bool.and_eq_true] at hc
        refine ⟨hc.1.1.1.2, hc.1.1.2, hc.1.2, Or.inr ⟨hc.1.1.1.1, ?_⟩⟩
        have := hc.2
        rwa [Bool.not_eq_true'] at this
      · exfalso
        have hlf : lightQueryFilter d = false := by
          cases hx : lightQueryFilter d
          · rfl
          · exact absurd hx hl
        have hcf : camQueryFilter d = false := by
          cases hx : camQueryFilter d
          · rfl
          · exact absurd hx hc
        have hlc : lightCmd icons w (id, d) = none := by
          simp [lightCmd, hlf]
        have hcc : camCmd icons w (id, d) = none := by
          simp [camCmd, hcf]
        have hns := meshlessCommands_no_subject icons w hnd hget hlc hcc
        have hid : id < w.nextId := get?_lt_nextId hb hget
        have hfr : (visualize_meshless icons w).get? id = w.get? id :=
          foldl_get?_frame icons (meshlessCommands icons w) w hid hns
        rw [hfr, hget] at hget'
        have hdd : d = d' := Option.some_inj.mp hget'
        exact hne (by rw [hdd])
  · intro id d hget hcam hmark hd hsp hpt
    have hlf : lightQueryFilter d = false := by
      unfold lightQueryFilter
      rw [hd, hsp, hpt]
      rfl
    have hcf : camQueryFilter d = false := by
      unfold camQueryFilter
      rw [hmark]
      simp
    have hlc : lightCmd icons w (id, d) = none := by
      simp [lightCmd, hlf]
    have hcc : camCmd icons w (id, d) = none := by
      simp [camCmd, hcf]
    have hns := meshlessCommands_no_subject icons w hnd hget hlc hcc
    have hid : id < w.nextId := get?_lt_nextId hb hget
    have hfr : (visualize_meshless icons w).get? id = w.get? id :=
      foldl_get?_frame icons (meshlessCommands icons w) w hid hns
    rw [hfr, hget]

/-- Claim C10 witness: the editor's own camera in a concrete scene is left
untouched by `visualize_meshless`. -/
theorem C10_query_filters_witness :
    wEditorCam.wf ∧ wEditorCam.get? 0 = some dEditorCam ∧
    dEditorCam.camera = true ∧ dEditorCam.editorCameraMarker = true ∧
    (visualize_meshless sampleIcons wEditorCam).get? 0 = some dEditorCam :=
  ⟨by decide, by decide, by decide, by decide,
    (C10_query_filters sampleIcons wEditorCam (by decide)).2 0 dEditorCam
      (by decide) (by decide) (by decide) (by decide) (by decide)
      (by decide)⟩
